import Mathlib

/-!
# Verification of the audiobook-catalog core

Shallow embedding of the catalog query engine, the series aggregation
engine, the CSV upsert/merge logic, the missing-detection pass, the
file-scanner folder-candidate builder and the commit gate of the
`audiobooks` repository (TypeScript sources under `src/`), together with
proofs of the specification's claims about them.

Conventions of the embedding:
* JavaScript numbers are modelled as `ℚ` (no overflow or rounding is
  relevant to any of the code embedded here; only comparisons, sums and
  one division occur).
* `T | null` fields are modelled as `Option`.
* JavaScript's `Array.prototype.sort`, applied to a consistent comparator
  (all comparators in this code base are total preorders), is a stable
  sort; it is modelled by `List.mergeSort` on the Boolean relation
  `cmp a b ≤ 0`, where `cmp` returns the sign of the number the
  JavaScript comparator returns.
* Filesystem and tag-extraction I/O is passed in as explicit data
  (directory listings, a `String → FileMeta` oracle), matching the way
  the scanner consumes it.
-/

namespace Audiobooks

/-! ## Small JavaScript-semantics helpers -/

/-- JS `a || b` for an optional string whose empty value is falsy:
`null`/`undefined` and `""` fall through to `b`. -/
def jsOrOptStr (a : Option String) (b : String) : String :=
  match a with
  | none => b
  | some s => if s = "" then b else s

/-- JS truthiness of an optional string value (`undefined`/`null`/`""` are falsy). -/
def jsTruthyOptStr (a : Option String) : Bool :=
  match a with
  | none => false
  | some s => s ≠ ""

/-- SQL `COALESCE(a, b)`. -/
def coalesce {α : Type} (a b : Option α) : Option α :=
  match a with
  | some x => some x
  | none => b

/-- SQL `x IS NULL OR x = ''` (the "existing field is empty" test of the
selective merge). -/
def isNullOrEmptyStr (a : Option String) : Bool :=
  match a with
  | none => true
  | some s => s = ""

/-- The whitespace class used by JS `String.prototype.trim` and `\s`
(ASCII whitespace plus the common Unicode members; sufficient for every
string this code base manipulates). -/
def jsIsSpace (c : Char) : Bool :=
  c = ' ' || c = '\t' || c = '\n' || c = '\r' ||
  c = Char.ofNat 0x0B || c = Char.ofNat 0x0C || c = Char.ofNat 0xA0 ||
  c = Char.ofNat 0x2028 || c = Char.ofNat 0x2029 || c = Char.ofNat 0xFEFF

/-- JS `String.prototype.trim` (both ends), at the character-list level. -/
def jsTrim (s : String) : String :=
  ⟨((s.data.dropWhile jsIsSpace).reverse.dropWhile jsIsSpace).reverse⟩

/-- JS `String.prototype.split` with a one-character separator, at the
character-list level (`"".split(sep) = [""]`, like JS on non-empty sep). -/
def splitOnChar (sep : Char) : List Char → List (List Char)
  | [] => [[]]
  | c :: cs =>
    match splitOnChar sep cs with
    | [] => [[]]
    | g :: gs => if c = sep then [] :: g :: gs else (c :: g) :: gs

/-- JS `s.split(sep)` for a one-character separator. -/
def jsSplit (s : String) (sep : Char) : List String :=
  (splitOnChar sep s.data).map (fun cs => ⟨cs⟩)

/-- JS `String.prototype.toLowerCase`, modelled with `Char.toLower`
(exact on the ASCII range, identity elsewhere). -/
def jsToLower (s : String) : String :=
  ⟨s.data.map Char.toLower⟩

/-- Does the character list `s` start with `pre`? -/
def charsStartWith : List Char → List Char → Bool
  | _, [] => true
  | [], _ :: _ => false
  | c :: cs, p :: ps => c = p && charsStartWith cs ps

/-- Does the character list `s` contain `sub` as a contiguous run? -/
def charsContain (s sub : List Char) : Bool :=
  match s with
  | [] => sub.isEmpty
  | c :: rest => charsStartWith (c :: rest) sub || charsContain rest sub

/-- JS `String.prototype.includes`: contiguous substring test. -/
def jsIncludes (s : String) (sub : String) : Bool :=
  charsContain s.data sub.data

/-! ## Narrators and the fully-rated predicate (`src/lib/db.ts`)

`narratorRatings` is a JS `Record<string, number | null>`; it is modelled
as an association list.  A lookup can yield `none` (key absent, JS
`undefined`) or `some none` (key present with value `null`). -/

/-- `parseNarrators` from `src/lib/db.ts`: split a narrator string on
commas, trim each token, drop empty tokens; a falsy input (null or the
empty string) yields the empty list. -/
def parseNarrators (narratorString : Option String) : List String :=
  if jsTruthyOptStr narratorString = false then []
  else
    ((jsSplit (narratorString.getD "") ',').map jsTrim).filter
      (fun n => n.length > 0)

/-- `isBookFullyRated` from `src/lib/db.ts`: `book_rating` non-null and
every narrator has a non-`undefined`, non-null entry in the ratings map. -/
def isBookFullyRated (bookRating : Option ℚ) (narrators : List String)
    (narratorRatings : List (String × Option ℚ)) : Bool :=
  match bookRating with
  | none => false
  | some _ =>
    if narrators.length = 0 then true
    else narrators.all (fun n =>
      match narratorRatings.lookup n with
      | some (some _) => true
      | _ => false)

/-! ## Records of the query engine (`src/lib/types.ts`, `src/lib/db.ts`) -/

/-- Book status (`BookStatus` in `src/lib/types.ts`). -/
inductive BookStatus where
  | not_started
  | in_progress
  | finished
deriving DecidableEq, Repr

/-- `BookSummaryWithNarrators` from `src/lib/types.ts`: the record shape
the query and aggregation engines operate on.  `narrators` is produced by
`parseNarrators narrator` in `getAllBooksWithNarrators`. -/
structure BookSummaryWithNarrators where
  id : Nat
  title : String
  author : Option String
  series : Option String
  series_book_number : Option String
  duration_seconds : Option ℚ
  is_duplicate : Bool
  status : BookStatus
  book_rating : Option ℚ
  cover_image_path : Option String
  missing_from_csv : Bool
  narrator : Option String
  narrators : List String
  narratorRatings : List (String × Option ℚ)
  date_added : String
  date_updated : String
deriving DecidableEq, Repr

/-! ## JS number parsing (`parseFloat`) -/

/-- A JavaScript number as produced by `parseFloat` and consumed by the
comparators: a rational, or one of the two infinities.  NaN is
represented one level up as `Option.none`. -/
inductive JsNum where
  | val (q : ℚ)
  | posInf
  | negInf
deriving DecidableEq, Repr

/-- Value of a digit run (most significant first). -/
def digitsToNat (ds : List Char) : Nat :=
  ds.foldl (fun a c => 10 * a + (c.toNat - 48)) 0

/-- JS `parseFloat`: skip leading whitespace, optional sign, then the
longest prefix that is an `Infinity` literal or a decimal literal with
optional fraction and exponent; `none` models NaN (no valid prefix).
Overflow of huge exponents to `Infinity` is not modelled (no claim
involves it). -/
def jsParseFloat (s : String) : Option JsNum :=
  let cs := s.data.dropWhile jsIsSpace
  let sgn : Bool × List Char :=
    match cs with
    | '-' :: r => (true, r)
    | '+' :: r => (false, r)
    | r => (false, r)
  let neg := sgn.1
  let cs1 := sgn.2
  if charsStartWith cs1 "Infinity".data then
    some (if neg then .negInf else .posInf)
  else
    let ip := cs1.takeWhile Char.isDigit
    let r1 := cs1.dropWhile Char.isDigit
    let fr : List Char × List Char :=
      match r1 with
      | '.' :: r => (r.takeWhile Char.isDigit, r.dropWhile Char.isDigit)
      | r => ([], r)
    let fp := fr.1
    let r2 := fr.2
    if ip.isEmpty && fp.isEmpty then none
    else
      let mantissa : ℚ := (digitsToNat ip : ℚ) + (digitsToNat fp : ℚ) / ((10 : ℚ) ^ fp.length)
      let expVal : Int :=
        match r2 with
        | 'e' :: r | 'E' :: r =>
          let esgn : Bool × List Char :=
            match r with
            | '-' :: rr => (true, rr)
            | '+' :: rr => (false, rr)
            | rr => (false, rr)
          let eds := esgn.2.takeWhile Char.isDigit
          if eds.isEmpty then 0
          else if esgn.1 then -(digitsToNat eds : Int) else (digitsToNat eds : Int)
        | _ => 0
      let m : ℚ := if neg then -mantissa else mantissa
      some (.val (m * (10 : ℚ) ^ expVal))

/-- `parseSeriesNumber` from `src/lib/db.ts`: falsy (null or empty)
values and NaN parses become `Infinity` so that unknown positions sort
as the largest value. -/
def parseSeriesNumber (value : Option String) : JsNum :=
  match value with
  | none => .posInf
  | some s =>
    if s = "" then .posInf
    else
      match jsParseFloat s with
      | none => .posInf
      | some n => n

/-- Sign of the JS subtraction `x - y` on two finite numbers. -/
def cmpQ (x y : ℚ) : Int :=
  if x < y then -1 else if y < x then 1 else 0

/-- Sign of the JS subtraction `a - b` as used by a numeric comparator;
`Infinity - Infinity` is NaN, which `Array.prototype.sort` treats as 0. -/
def jsNumSubSign (a b : JsNum) : Int :=
  match a, b with
  | .posInf, .posInf => 0
  | .negInf, .negInf => 0
  | .posInf, _ => 1
  | _, .posInf => -1
  | .negInf, _ => -1
  | _, .negInf => 1
  | .val x, .val y => cmpQ x y

/-! ## The book comparator and `getBooksFiltered` (`src/lib/db.ts`) -/

/-- Sign of `a.localeCompare(b)`: lexicographic comparison by code point,
which coincides with the default-locale collation on the lower-cased
ASCII strings this catalog compares. -/
def localeCmp (a b : String) : Int :=
  if a < b then -1 else if b < a then 1 else 0

/-- The fixed ordinal used by the `status` sort branch. -/
def statusOrder : BookStatus → ℚ
  | .not_started => 0
  | .in_progress => 1
  | .finished => 2

/-- The whitelist `ALLOWED_BOOK_SORT_FIELDS` from `src/lib/db.ts`. -/
def ALLOWED_BOOK_SORT_FIELDS : List String :=
  ["title", "author", "narrator", "book_rating", "date_added", "status",
   "series", "series_book_number"]

/-- The comparator closure of `getBooksFiltered` (`src/lib/db.ts`,
`books.sort`): computes the sign of the number the JS comparator
returns, after the `switch (validField)` dispatch.  The string/number
`typeof` dispatch of the tail is folded into each branch. -/
def bookComparator (validField sortDir : String)
    (a b : BookSummaryWithNarrators) : Int :=
  if validField = "title" then
    if sortDir = "asc" then localeCmp (jsToLower a.title) (jsToLower b.title)
    else localeCmp (jsToLower b.title) (jsToLower a.title)
  else if validField = "author" then
    if sortDir = "asc" then
      localeCmp (jsToLower (jsOrOptStr a.author "")) (jsToLower (jsOrOptStr b.author ""))
    else
      localeCmp (jsToLower (jsOrOptStr b.author "")) (jsToLower (jsOrOptStr a.author ""))
  else if validField = "narrator" then
    if sortDir = "asc" then
      localeCmp (jsToLower (jsOrOptStr a.narrators.head? ""))
        (jsToLower (jsOrOptStr b.narrators.head? ""))
    else
      localeCmp (jsToLower (jsOrOptStr b.narrators.head? ""))
        (jsToLower (jsOrOptStr a.narrators.head? ""))
  else if validField = "book_rating" then
    match a.book_rating, b.book_rating with
    | none, none => 0
    | none, some _ => 1
    | some _, none => -1
    | some x, some y => if sortDir = "asc" then cmpQ x y else cmpQ y x
  else if validField = "date_added" then
    if sortDir = "asc" then localeCmp a.date_added b.date_added
    else localeCmp b.date_added a.date_added
  else if validField = "status" then
    if sortDir = "asc" then cmpQ (statusOrder a.status) (statusOrder b.status)
    else cmpQ (statusOrder b.status) (statusOrder a.status)
  else if validField = "series" then
    if sortDir = "asc" then
      localeCmp (jsToLower (jsOrOptStr a.series "")) (jsToLower (jsOrOptStr b.series ""))
    else
      localeCmp (jsToLower (jsOrOptStr b.series "")) (jsToLower (jsOrOptStr a.series ""))
  else if validField = "series_book_number" then
    if sortDir = "asc" then
      jsNumSubSign (parseSeriesNumber a.series_book_number)
        (parseSeriesNumber b.series_book_number)
    else
      jsNumSubSign (parseSeriesNumber b.series_book_number)
        (parseSeriesNumber a.series_book_number)
  else
    if sortDir = "asc" then localeCmp (jsToLower a.title) (jsToLower b.title)
    else localeCmp (jsToLower b.title) (jsToLower a.title)

/-- `BookFilters` from `src/lib/types.ts` (all fields optional). -/
structure BookFilters where
  search : Option String := none
  statuses : Option (List BookStatus) := none
  ratingFilter : Option String := none
  seriesKey : Option String := none

/-- `BookSort` from `src/lib/types.ts`.  Field and direction are carried
as the raw runtime strings; `getBooksFiltered` itself whitelists the
field. -/
structure BookSort where
  field : String
  direction : String

/-! ## The books table and the CSV upsert (`src/lib/db.ts`, `src/lib/csv-parser.ts`)

The `books` table row is modelled without its `AUTOINCREMENT` id (store
mechanics outside the embedded logic; rows are keyed by the `UNIQUE`
`path`).  `type` and `title` are `NOT NULL` in the schema but the merge
SQL still guards them with `COALESCE`/`IS NULL`, so they are modelled
nullable like the SQL treats them. -/

/-- `ParsedBook` from `src/lib/csv-parser.ts` (one CSV row after parsing). -/
structure ParsedBook where
  path : String
  type : String
  title : String
  author : Option String
  narrator : Option String
  duration_seconds : Option ℚ
  has_embedded_cover : Option Bool
  total_size_bytes : Option ℚ
  file_count : Option ℚ
  is_duplicate : Option Bool
  series : Option String
  series_book_number : Option String
  series_ended : Option Bool
  series_name_raw : Option String
  series_exact_name_raw : Option String
deriving DecidableEq, Repr

/-- A row of the `books` table (`src/lib/schema.ts`). -/
structure BookRow where
  path : String
  type : Option String
  title : Option String
  author : Option String
  narrator : Option String
  duration_seconds : Option ℚ
  has_embedded_cover : Option Bool
  total_size_bytes : Option ℚ
  file_count : Option ℚ
  is_duplicate : Option Bool
  series : Option String
  series_book_number : Option String
  series_ended : Option Bool
  series_name_raw : Option String
  series_exact_name_raw : Option String
  source : Option String
  status : BookStatus
  book_rating : Option ℚ
  tags : Option String
  notes : Option String
  cover_image_path : Option String
  missing_from_csv : Bool
  date_added : String
  date_updated : String
deriving DecidableEq, Repr

/-- The selective `UPDATE` of `upsertBooks` for an existing row whose
source is `manual`: a text field is replaced only when `NULL` or empty,
the `COALESCE` fields only when `NULL`; `source` and the user fields are
untouched, `missing_from_csv` is cleared. -/
def selectiveMergeManual (r : BookRow) (b : ParsedBook) (now : String) : BookRow :=
  { r with
    type := coalesce r.type (some b.type)
    title := if isNullOrEmptyStr r.title then some b.title else r.title
    author := if isNullOrEmptyStr r.author then b.author else r.author
    narrator := if isNullOrEmptyStr r.narrator then b.narrator else r.narrator
    duration_seconds := coalesce r.duration_seconds b.duration_seconds
    has_embedded_cover := coalesce r.has_embedded_cover b.has_embedded_cover
    total_size_bytes := coalesce r.total_size_bytes b.total_size_bytes
    file_count := coalesce r.file_count b.file_count
    is_duplicate := coalesce r.is_duplicate b.is_duplicate
    series := if isNullOrEmptyStr r.series then b.series else r.series
    series_book_number := coalesce r.series_book_number b.series_book_number
    series_ended := coalesce r.series_ended b.series_ended
    series_name_raw := coalesce r.series_name_raw b.series_name_raw
    series_exact_name_raw := coalesce r.series_exact_name_raw b.series_exact_name_raw
    missing_from_csv := false
    date_updated := now }

/-- The full `UPDATE` of `upsertBooks` for an existing row whose source
is not `manual`: every descriptive field is overwritten, `source` is set
to `csv`, the user fields are untouched, `missing_from_csv` is cleared. -/
def fullMergeCsv (r : BookRow) (b : ParsedBook) (now : String) : BookRow :=
  { r with
    type := some b.type
    title := some b.title
    author := b.author
    narrator := b.narrator
    duration_seconds := b.duration_seconds
    has_embedded_cover := b.has_embedded_cover
    total_size_bytes := b.total_size_bytes
    file_count := b.file_count
    is_duplicate := b.is_duplicate
    series := b.series
    series_book_number := b.series_book_number
    series_ended := b.series_ended
    series_name_raw := b.series_name_raw
    series_exact_name_raw := b.series_exact_name_raw
    source := some "csv"
    missing_from_csv := false
    date_updated := now }

/-- The `INSERT` of `upsertBooks` for a new path: source `csv`, flag
cleared, user fields at their column defaults. -/
def insertCsvRow (b : ParsedBook) (now : String) : BookRow :=
  { path := b.path
    type := some b.type
    title := some b.title
    author := b.author
    narrator := b.narrator
    duration_seconds := b.duration_seconds
    has_embedded_cover := b.has_embedded_cover
    total_size_bytes := b.total_size_bytes
    file_count := b.file_count
    is_duplicate := b.is_duplicate
    series := b.series
    series_book_number := b.series_book_number
    series_ended := b.series_ended
    series_name_raw := b.series_name_raw
    series_exact_name_raw := b.series_exact_name_raw
    source := some "csv"
    status := .not_started
    book_rating := none
    tags := none
    notes := none
    cover_image_path := none
    missing_from_csv := false
    date_added := now
    date_updated := now }

/-- One iteration of the `upsertBooks` loop: look the path up, choose
the merge by the existing row's source (`UPDATE ... WHERE path = ?`), or
insert. -/
def upsertOne (db : List BookRow) (b : ParsedBook) (now : String) : List BookRow :=
  match db.find? (fun r => r.path == b.path) with
  | some r0 =>
    if r0.source = some "manual" then
      db.map (fun r => if r.path = b.path then selectiveMergeManual r b now else r)
    else
      db.map (fun r => if r.path = b.path then fullMergeCsv r b now else r)
  | none => db ++ [insertCsvRow b now]

/-- `upsertBooks` from `src/lib/db.ts`, as the catalog-state transformer
(the returned `ImportSummary` counters are not modelled; no claim
involves them). -/
def upsertBooks (books : List ParsedBook) (db : List BookRow) (now : String) :
    List BookRow :=
  books.foldl (fun acc b => upsertOne acc b now) db

/-- The flag-and-timestamp update one `markMissingBooks` iteration
applies to the rows of its path. -/
def markRowMissing (r : BookRow) (now : String) : BookRow :=
  { r with missing_from_csv := true, date_updated := now }

/-- `markMissingBooks` from `src/lib/db.ts`: one `UPDATE ... WHERE
path = ?` per missing path. -/
def markMissingBooks (missingPaths : List String) (db : List BookRow)
    (now : String) : List BookRow :=
  missingPaths.foldl
    (fun acc p => acc.map (fun r => if r.path = p then markRowMissing r now else r))
    db

/-- The catalog effect of the CSV import route
(`src/app/api/csv/import/route.ts`): snapshot the existing paths, upsert
every parsed row, then flag the existing paths that the CSV no longer
contains. -/
def csvImportCatalog (db0 : List BookRow) (books : List ParsedBook)
    (now : String) : List BookRow :=
  let existingPaths := db0.map (·.path)
  let csvPaths := books.map (·.path)
  let db1 := upsertBooks books db0 now
  let missingPaths := existingPaths.filter (fun p => !(csvPaths.contains p))
  markMissingBooks missingPaths db1 now

/-! ## `encodeURIComponent` / `decodeURIComponent`

The series key is built with `encodeURIComponent` in `getSeriesStats`
and decoded with `decodeURIComponent` in the series filter of
`getBooksFiltered`.  Both are modelled at the character level, with
UTF-8 percent-encoding. -/

/-- The characters `encodeURIComponent` leaves unescaped
(`A–Z a–z 0–9 - _ . ! ~ * ' ( )`). -/
def isUnreservedURIChar (c : Char) : Bool :=
  ('A' ≤ c && c ≤ 'Z') || ('a' ≤ c && c ≤ 'z') || ('0' ≤ c && c ≤ '9') ||
  c = '-' || c = '_' || c = '.' || c = '!' || c = '~' || c = '*' ||
  c = Char.ofNat 39 || c = '(' || c = ')'

/-- UTF-8 encoding of one code point. -/
def utf8Bytes (c : Char) : List Nat :=
  let n := c.toNat
  if n < 0x80 then [n]
  else if n < 0x800 then [0xC0 + n / 0x40, 0x80 + n % 0x40]
  else if n < 0x10000 then
    [0xE0 + n / 0x1000, 0x80 + (n / 0x40) % 0x40, 0x80 + n % 0x40]
  else
    [0xF0 + n / 0x40000, 0x80 + (n / 0x1000) % 0x40, 0x80 + (n / 0x40) % 0x40,
     0x80 + n % 0x40]

/-- Upper-case hexadecimal digit. -/
def hexDigitChar (n : Nat) : Char :=
  if n < 10 then Char.ofNat (48 + n) else Char.ofNat (55 + n)

/-- Value of a hexadecimal digit character (either case). -/
def hexVal? (c : Char) : Option Nat :=
  if '0' ≤ c && c ≤ '9' then some (c.toNat - 48)
  else if 'A' ≤ c && c ≤ 'F' then some (c.toNat - 55)
  else if 'a' ≤ c && c ≤ 'f' then some (c.toNat - 87)
  else none

/-- Percent-escape of one byte. -/
def pctBytes (b : Nat) : List Char :=
  ['%', hexDigitChar (b / 16), hexDigitChar (b % 16)]

/-- Encoding of one character: kept if unreserved, otherwise the
percent-escapes of its UTF-8 bytes. -/
def encodeURIChar (c : Char) : List Char :=
  if isUnreservedURIChar c then [c] else (utf8Bytes c).flatMap pctBytes

/-- JS `encodeURIComponent`. -/
def encodeURIComponent (s : String) : String :=
  ⟨s.data.flatMap encodeURIChar⟩

/-- Read one percent-escape (`%` plus two hex digits) from the front of
a character list, yielding the byte value and the remaining characters. -/
def pctByte? : List Char → Option (Nat × List Char)
  | '%' :: h1 :: h2 :: rest =>
    match hexVal? h1, hexVal? h2 with
    | some a, some b => some (16 * a + b, rest)
    | _, _ => none
  | _ => none

/-- Percent-decoding with UTF-8 reassembly; `none` where JS
`decodeURIComponent` throws `URIError` (malformed escape, stray or
overlong sequence, surrogate code point).  The fuel argument only bounds
the recursion; every step consumes at least one input character, so fuel
equal to the input length is always enough. -/
def decodeURILoop : Nat → List Char → Option (List Char)
  | _, [] => some []
  | 0, _ :: _ => none
  | fuel + 1, c :: rest =>
    if c = '%' then
      match pctByte? (c :: rest) with
      | none => none
      | some (b0, r1) =>
        if b0 < 0x80 then (decodeURILoop fuel r1).map (Char.ofNat b0 :: ·)
        else if b0 < 0xC2 then none
        else if b0 < 0xE0 then
          match pctByte? r1 with
          | none => none
          | some (b1, r2) =>
            if 0x80 ≤ b1 && b1 < 0xC0 then
              (decodeURILoop fuel r2).map
                (Char.ofNat ((b0 - 0xC0) * 0x40 + (b1 - 0x80)) :: ·)
            else none
        else if b0 < 0xF0 then
          match pctByte? r1 with
          | none => none
          | some (b1, r2) =>
            match pctByte? r2 with
            | none => none
            | some (b2, r3) =>
              if (0x80 ≤ b1 && b1 < 0xC0) && (0x80 ≤ b2 && b2 < 0xC0) then
                let n := (b0 - 0xE0) * 0x1000 + (b1 - 0x80) * 0x40 + (b2 - 0x80)
                if 0x800 ≤ n && !(0xD800 ≤ n && n < 0xE000) then
                  (decodeURILoop fuel r3).map (Char.ofNat n :: ·)
                else none
              else none
        else if b0 < 0xF5 then
          match pctByte? r1 with
          | none => none
          | some (b1, r2) =>
            match pctByte? r2 with
            | none => none
            | some (b2, r3) =>
              match pctByte? r3 with
              | none => none
              | some (b3, r4) =>
                if (0x80 ≤ b1 && b1 < 0xC0) && (0x80 ≤ b2 && b2 < 0xC0) &&
                    (0x80 ≤ b3 && b3 < 0xC0) then
                  let n := (b0 - 0xF0) * 0x40000 + (b1 - 0x80) * 0x1000 +
                    (b2 - 0x80) * 0x40 + (b3 - 0x80)
                  if 0x10000 ≤ n && n < 0x110000 then
                    (decodeURILoop fuel r4).map (Char.ofNat n :: ·)
                  else none
                else none
        else none
    else (decodeURILoop fuel rest).map (c :: ·)

/-- JS `decodeURIComponent`.  On malformed input, where JS throws
`URIError`, the input is returned unchanged; no embedded call site
reaches that case (keys are either `encodeURIComponent` images or the
literal `"standalone"`). -/
def decodeURIComponent (s : String) : String :=
  match decodeURILoop s.data.length s.data with
  | some cs => ⟨cs⟩
  | none => s

/-! ## The filter stages and sort of `getBooksFiltered` -/

/-- The four filter stages of `getBooksFiltered` (`src/lib/db.ts`):
search, statuses, rating completeness, series key — applied in source
order. -/
def applyBookFilters (books0 : List BookSummaryWithNarrators)
    (filters : Option BookFilters) : List BookSummaryWithNarrators :=
  let books1 :=
    match filters.bind (·.search) with
    | some s =>
      if s ≠ "" ∧ jsTrim s ≠ "" then
        let searchLower := jsToLower (jsTrim s)
        books0.filter (fun b =>
          jsIncludes (jsToLower b.title) searchLower ||
          (jsTruthyOptStr b.author &&
            jsIncludes (jsToLower (jsOrOptStr b.author "")) searchLower) ||
          (jsTruthyOptStr b.series &&
            jsIncludes (jsToLower (jsOrOptStr b.series "")) searchLower) ||
          (jsTruthyOptStr b.narrator &&
            jsIncludes (jsToLower (jsOrOptStr b.narrator "")) searchLower))
      else books0
    | none => books0
  let books2 :=
    match filters.bind (·.statuses) with
    | some sts =>
      if sts.length > 0 then books1.filter (fun b => sts.contains b.status)
      else books1
    | none => books1
  let books3 :=
    if filters.bind (·.ratingFilter) = some "fullyRated" then
      books2.filter (fun b =>
        isBookFullyRated b.book_rating b.narrators b.narratorRatings)
    else if filters.bind (·.ratingFilter) = some "unrated" then
      books2.filter (fun b =>
        !(isBookFullyRated b.book_rating b.narrators b.narratorRatings))
    else books2
  match filters.bind (·.seriesKey) with
  | some k =>
    if k = "" then books3
    else if k = "standalone" then
      books3.filter (fun b => jsTrim (jsOrOptStr b.series "") = "")
    else
      let seriesName := decodeURIComponent k
      books3.filter (fun b => b.series = some seriesName)
  | none => books3

/-- `getBooksFiltered` (`src/lib/db.ts`): filter stages, then the
whitelisted stable sort.  `sort?.field || 'title'` and
`sort?.direction || 'asc'` treat a missing or empty value as the
default. -/
def getBooksFiltered (books0 : List BookSummaryWithNarrators)
    (filters : Option BookFilters) (sort : Option BookSort) :
    List BookSummaryWithNarrators :=
  let books := applyBookFilters books0 filters
  let sortField := jsOrOptStr (sort.map (·.field)) "title"
  let sortDir := jsOrOptStr (sort.map (·.direction)) "asc"
  let validField :=
    if ALLOWED_BOOK_SORT_FIELDS.contains sortField then sortField else "title"
  books.mergeSort (fun a b => decide (bookComparator validField sortDir a b ≤ 0))

/-! ## The series aggregation engine (`getSeriesStats`, `src/lib/db.ts`) -/

/-- JS `value || null` on a string: the empty string becomes null. -/
def jsStrOrNull (s : String) : Option String :=
  if s = "" then none else some s

/-- The `safeString` helper of `getSeriesStats`: null becomes the empty
string, everything else is trimmed. -/
def safeString (value : Option String) : String :=
  match value with
  | none => ""
  | some s => jsTrim s

/-- `bookMatchesSearch` from `src/lib/db.ts` (title, author, narrator). -/
def bookMatchesSearch (book : BookSummaryWithNarrators)
    (searchLower : String) : Bool :=
  jsIncludes (jsToLower book.title) searchLower ||
  (jsTruthyOptStr book.author &&
    jsIncludes (jsToLower (jsOrOptStr book.author "")) searchLower) ||
  (jsTruthyOptStr book.narrator &&
    jsIncludes (jsToLower (jsOrOptStr book.narrator "")) searchLower)

/-- Append a book to its group, keeping the JS `Map`'s insertion order
of keys (`seriesMap.get(key)!.push(book)`). -/
def addToGroup :
    List (String × List BookSummaryWithNarrators) → String →
      BookSummaryWithNarrators → List (String × List BookSummaryWithNarrators)
  | [], key, bk => [(key, [bk])]
  | (k, bs) :: rest, key, bk =>
    if k = key then (k, bs ++ [bk]) :: rest else (k, bs) :: addToGroup rest key bk

/-- One iteration of the grouping loop of `getSeriesStats`: a book with
a non-empty trimmed series string joins its group, the rest go to the
standalone list. -/
def groupStep
    (acc : List (String × List BookSummaryWithNarrators) ×
      List BookSummaryWithNarrators)
    (bk : BookSummaryWithNarrators) :
    List (String × List BookSummaryWithNarrators) ×
      List BookSummaryWithNarrators :=
  let seriesStr := safeString bk.series
  if seriesStr ≠ "" then (addToGroup acc.1 seriesStr bk, acc.2)
  else (acc.1, acc.2 ++ [bk])

/-- The grouping loop of `getSeriesStats`. -/
def groupBySeries (allBooks : List BookSummaryWithNarrators) :
    List (String × List BookSummaryWithNarrators) ×
      List BookSummaryWithNarrators :=
  allBooks.foldl groupStep ([], [])

/-- The `parseBookNumber` helper of `getSeriesStats` (defensive variant
of `parseSeriesNumber` that trims first). -/
def parseBookNumber (value : Option String) : JsNum :=
  match value with
  | none => .posInf
  | some v =>
    let str := jsTrim v
    if str = "" then .posInf
    else
      match jsParseFloat str with
      | none => .posInf
      | some n => n

/-- The comparator of `findCoverBook`: date-added for the standalone
group; series-position then date-added for a series. -/
def coverCmp (isStandalone : Bool) (a b : BookSummaryWithNarrators) : Int :=
  if isStandalone then localeCmp a.date_added b.date_added
  else
    let numA := parseBookNumber a.series_book_number
    let numB := parseBookNumber b.series_book_number
    if numA ≠ numB then jsNumSubSign numA numB
    else localeCmp a.date_added b.date_added

/-- `findCoverBook` from `src/lib/db.ts`: first member in
series-position/date order that has a cover; the fallback scans the
sorted members for any cover. -/
def findCoverBook (books : List BookSummaryWithNarrators)
    (isStandalone : Bool) : Option Nat × Option String :=
  if books.length = 0 then (none, none)
  else
    let sortedBooks :=
      books.mergeSort (fun a b => decide (coverCmp isStandalone a b ≤ 0))
    match sortedBooks with
    | [] => (none, none)
    | firstBook :: _ =>
      if jsTruthyOptStr firstBook.cover_image_path then
        (some firstBook.id, jsStrOrNull firstBook.date_updated)
      else
        match sortedBooks.filter (fun bk => jsTruthyOptStr bk.cover_image_path) with
        | [] => (none, none)
        | fallback :: _ => (some fallback.id, jsStrOrNull fallback.date_updated)

/-- `SeriesStats` from `src/lib/types.ts` (the completion status shares
the three values of `BookStatus`). -/
structure SeriesStats where
  seriesKey : String
  seriesName : String
  bookCount : Nat
  totalDurationSeconds : ℚ
  finishedCount : Nat
  notStartedCount : Nat
  inProgressCount : Nat
  avgBookRating : Option ℚ
  ratedCount : Nat
  unratedCount : Nat
  completionStatus : BookStatus
  completionPercent : ℚ
  coverBookId : Option Nat
  coverUpdatedAt : Option String
deriving DecidableEq, Repr

/-- The `computeStats` closure of `getSeriesStats`: per-group counts,
average rating of the non-null ratings, completion status and percent,
total duration, and the representative cover. -/
def computeStats (seriesKey seriesName : String)
    (books : List BookSummaryWithNarrators) (isStandalone : Bool) :
    SeriesStats :=
  let bookCount := books.length
  let finishedCount := (books.filter (fun b => decide (b.status = .finished))).length
  let notStartedCount := (books.filter (fun b => decide (b.status = .not_started))).length
  let inProgressCount := (books.filter (fun b => decide (b.status = .in_progress))).length
  let ratedBooks := books.filter (fun b => decide (b.book_rating ≠ none))
  let ratedCount := ratedBooks.length
  let unratedCount := (books.filter (fun b =>
    !(isBookFullyRated b.book_rating b.narrators b.narratorRatings))).length
  let avgBookRating : Option ℚ :=
    if ratedCount > 0 then
      some ((ratedBooks.foldl (fun sum b => sum + b.book_rating.getD 0) 0) /
        (ratedCount : ℚ))
    else none
  let completionStatus : BookStatus :=
    if finishedCount = bookCount then .finished
    else if notStartedCount = bookCount then .not_started
    else .in_progress
  let completionPercent : ℚ :=
    if bookCount > 0 then ((finishedCount : ℚ) / (bookCount : ℚ)) * 100 else 0
  let totalDurationSeconds : ℚ :=
    books.foldl (fun sum b => sum + b.duration_seconds.getD 0) 0
  let cover := findCoverBook books isStandalone
  { seriesKey := seriesKey
    seriesName := seriesName
    bookCount := bookCount
    totalDurationSeconds := totalDurationSeconds
    finishedCount := finishedCount
    notStartedCount := notStartedCount
    inProgressCount := inProgressCount
    avgBookRating := avgBookRating
    ratedCount := ratedCount
    unratedCount := unratedCount
    completionStatus := completionStatus
    completionPercent := completionPercent
    coverBookId := cover.1
    coverUpdatedAt := cover.2 }

/-- `SeriesFilters` from `src/lib/types.ts`. -/
structure SeriesFilters where
  search : Option String := none
  ratingFilter : Option String := none
  completionStatus : Option BookStatus := none

/-- `SeriesSort` from `src/lib/types.ts` (runtime strings). -/
structure SeriesSort where
  field : String
  direction : String

/-- The comparator of the series-level sort in `getSeriesStats`, as the
sign of the JS comparator's return value. -/
def seriesComparator (sortField sortDir : String) (a b : SeriesStats) : Int :=
  if sortField = "seriesName" then
    if sortDir = "asc" then localeCmp (jsToLower a.seriesName) (jsToLower b.seriesName)
    else localeCmp (jsToLower b.seriesName) (jsToLower a.seriesName)
  else if sortField = "bookCount" then
    if sortDir = "asc" then cmpQ (a.bookCount : ℚ) (b.bookCount : ℚ)
    else cmpQ (b.bookCount : ℚ) (a.bookCount : ℚ)
  else if sortField = "totalDurationSeconds" then
    if sortDir = "asc" then cmpQ a.totalDurationSeconds b.totalDurationSeconds
    else cmpQ b.totalDurationSeconds a.totalDurationSeconds
  else if sortField = "avgBookRating" then
    match a.avgBookRating, b.avgBookRating with
    | none, none => 0
    | none, some _ => 1
    | some _, none => -1
    | some x, some y => if sortDir = "asc" then cmpQ x y else cmpQ y x
  else if sortField = "completionPercent" then
    if sortDir = "asc" then cmpQ a.completionPercent b.completionPercent
    else cmpQ b.completionPercent a.completionPercent
  else
    if sortDir = "asc" then localeCmp (jsToLower a.seriesName) (jsToLower b.seriesName)
    else localeCmp (jsToLower b.seriesName) (jsToLower a.seriesName)

/-- `getSeriesStats` from `src/lib/db.ts`: group, build per-group stats
(series keys are the URI-encoded trimmed series names, the standalone
group uses the sentinel key), apply the search and series-level filters,
sort. -/
def getSeriesStats (allBooks : List BookSummaryWithNarrators)
    (filters : Option SeriesFilters) (sort : Option SeriesSort) :
    List SeriesStats :=
  let searchLower : Option String :=
    (filters.bind (·.search)).map (fun s => jsToLower (jsTrim s))
  let grouped := groupBySeries allBooks
  let seriesStatsList : List SeriesStats :=
    grouped.1.foldl
      (fun acc kv =>
        if jsTruthyOptStr searchLower then
          let sl := searchLower.getD ""
          if !(jsIncludes (jsToLower kv.1) sl) &&
              !(kv.2.any (fun b => bookMatchesSearch b sl)) then
            acc
          else acc ++ [computeStats (encodeURIComponent kv.1) kv.1 kv.2 false]
        else acc ++ [computeStats (encodeURIComponent kv.1) kv.1 kv.2 false])
      []
  let withStandalone : List SeriesStats :=
    if grouped.2.length > 0 then
      if jsTruthyOptStr searchLower then
        if (grouped.2.filter
            (fun b => bookMatchesSearch b (searchLower.getD ""))).length > 0 then
          seriesStatsList ++ [computeStats "standalone" "Standalone Books" grouped.2 true]
        else seriesStatsList
      else seriesStatsList ++ [computeStats "standalone" "Standalone Books" grouped.2 true]
    else seriesStatsList
  let filtered : List SeriesStats :=
    match filters with
    | some f =>
      let afterRating :=
        if f.ratingFilter = some "fullyRated" then
          withStandalone.filter (fun s =>
            decide (s.ratedCount = s.bookCount ∧ s.bookCount > 0))
        else if f.ratingFilter = some "partlyRated" then
          withStandalone.filter (fun s =>
            decide (s.ratedCount > 0 ∧ s.ratedCount < s.bookCount))
        else if f.ratingFilter = some "unrated" then
          withStandalone.filter (fun s => decide (s.ratedCount = 0))
        else withStandalone
      match f.completionStatus with
      | some cs => afterRating.filter (fun s => decide (s.completionStatus = cs))
      | none => afterRating
    | none => withStandalone
  let sortField := jsOrOptStr (sort.map (·.field)) "seriesName"
  let sortDir := jsOrOptStr (sort.map (·.direction)) "asc"
  filtered.mergeSort (fun a b => decide (seriesComparator sortField sortDir a b ≤ 0))

/-! ## Concrete records for the claim examples -/

/-- A record with every field at its neutral value, used to build the
concrete records of the sorting examples. -/
def emptyBook : BookSummaryWithNarrators :=
  { id := 0, title := "", author := none, series := none,
    series_book_number := none, duration_seconds := none,
    is_duplicate := false, status := .not_started, book_rating := none,
    cover_image_path := none, missing_from_csv := false, narrator := none,
    narrators := [], narratorRatings := [], date_added := "",
    date_updated := "" }

/-- The three records of the C8 example: ratings 3, null, 5. -/
def c8r3 : BookSummaryWithNarrators := { emptyBook with id := 1, book_rating := some 3 }

def c8rN : BookSummaryWithNarrators := { emptyBook with id := 2, book_rating := none }

def c8r5 : BookSummaryWithNarrators := { emptyBook with id := 3, book_rating := some 5 }

/-- A record whose series position parses to 1. -/
def c2p1 : BookSummaryWithNarrators :=
  { emptyBook with id := 1, series_book_number := some "1" }

/-- A record with an absent series position. -/
def c2pN : BookSummaryWithNarrators :=
  { emptyBook with id := 2, series_book_number := none }

/-- A record titled "a". -/
def c9a : BookSummaryWithNarrators := { emptyBook with id := 1, title := "a" }

/-- A record titled "b". -/
def c9b : BookSummaryWithNarrators := { emptyBook with id := 2, title := "b" }

/-- An all-null books-table row, base for the concrete merge scenarios. -/
def emptyRow : BookRow :=
  { path := "", type := none, title := none, author := none, narrator := none,
    duration_seconds := none, has_embedded_cover := none,
    total_size_bytes := none, file_count := none, is_duplicate := none,
    series := none, series_book_number := none, series_ended := none,
    series_name_raw := none, series_exact_name_raw := none, source := none,
    status := .not_started, book_rating := none, tags := none, notes := none,
    cover_image_path := none, missing_from_csv := false, date_added := "",
    date_updated := "" }

/-- Existing `manual` row with a populated author. -/
def c1ManualRow : BookRow :=
  { emptyRow with
    path := "p"
    source := some "manual"
    author := some "X"
    title := some "T" }

/-- Existing scanner-sourced row with a populated author. -/
def c1ScannedRow : BookRow :=
  { emptyRow with
    path := "p"
    source := some "scanned"
    author := some "X"
    title := some "T" }

/-- The second commit for the same path, with a different author. -/
def c1Incoming : ParsedBook :=
  { path := "p", type := "Folder", title := "T2", author := some "Y",
    narrator := none, duration_seconds := none, has_embedded_cover := none,
    total_size_bytes := none, file_count := none, is_duplicate := none,
    series := none, series_book_number := none, series_ended := none,
    series_name_raw := none, series_exact_name_raw := none }

/-- The three pre-existing rows of the C6 example, with paths A, B, C. -/
def c6rowA : BookRow := { emptyRow with path := "A" }

def c6rowB : BookRow := { emptyRow with path := "B" }

def c6rowC : BookRow := { emptyRow with path := "C" }

/-- The incoming set of the C6 example: paths A and C only. -/
def c6bookA : ParsedBook := { c1Incoming with path := "A" }

def c6bookC : ParsedBook := { c1Incoming with path := "C" }

/-- The concrete group member of the C7 witness. -/
def c7book : BookSummaryWithNarrators :=
  { emptyBook with id := 1, status := .finished, book_rating := some 4 }

def c10bk : BookSummaryWithNarrators :=
  { emptyBook with id := 10, series := some " Foo" }

def c10good : BookSummaryWithNarrators :=
  { emptyBook with id := 11, series := some "Foo" }

/-! ## The folder scanner (`src/lib/file-scanner.ts`)

Filesystem reads (`fs.readdirSync`, `fs.statSync`) enter as an explicit
directory listing, and `extractFileMetadata` (tag parsing, I/O) enters
as an oracle `metaOf` from file path to its extraction result. -/

/-- JS `a || b` on two plain strings. -/
def jsOrStr (a b : String) : String := if a ≠ "" then a else b

/-- `path.basename` (POSIX separator). -/
def pathBasename (s : String) : String :=
  ⟨(splitOnChar '/' s.data).getLastD []⟩

/-- `path.extname`: from the last dot of the basename to the end, empty
when there is no dot or the only dot starts the basename. -/
def pathExtname (p : String) : String :=
  let base := (pathBasename p).data
  let pre := (base.reverse.takeWhile (fun c => c ≠ '.')).reverse
  if pre.length = base.length then ""
  else if base.length = pre.length + 1 then ""
  else ⟨'.' :: pre⟩

/-- `path.join` of a directory and an entry name (POSIX separator). -/
def pathJoin (dir name : String) : String := dir ++ "/" ++ name

/-- `path.basename(p, path.extname(p))`: the basename with its
extension cut off. -/
def pathBasenameNoExt (p : String) : String :=
  ⟨(pathBasename p).data.take
    ((pathBasename p).data.length - (pathExtname p).data.length)⟩

/-- `AUDIO_EXTENSIONS` from `src/lib/types.ts`. -/
def AUDIO_EXTENSIONS : List String :=
  [".mp3", ".m4a", ".m4b", ".flac", ".ogg", ".opus", ".wma", ".aac"]

/-- `AUDIOBOOK_EXTENSIONS` from `src/lib/types.ts` (the preferred
audiobook-container format). -/
def AUDIOBOOK_EXTENSIONS : List String := [".m4b"]

/-- `isAudioFile` from `src/lib/file-scanner.ts`. -/
def isAudioFile (filename : String) : Bool :=
  AUDIO_EXTENSIONS.contains (jsToLower (pathExtname filename))

/-- `isAudiobookFile` from `src/lib/file-scanner.ts`. -/
def isAudiobookFile (filename : String) : Bool :=
  AUDIOBOOK_EXTENSIONS.contains (jsToLower (pathExtname filename))

/-- Coercion of an integer to JS 32-bit signed semantics (the `& ` and
`<<` operators). -/
def toInt32 (n : Int) : Int := (n + 2 ^ 31) % 2 ^ 32 - 2 ^ 31

/-- One step of the `generateId` hash loop:
`hash = (((hash << 5) - hash) + char) & hash-width`. -/
def generateIdStep (hash : Int) (c : Char) : Int :=
  toInt32 (toInt32 (hash * 32) - hash + (c.toNat : Int))

/-- Lower-case base-36 digit of `Number.prototype.toString(36)`. -/
def base36Digit (n : Nat) : Char :=
  if n < 10 then Char.ofNat (48 + n) else Char.ofNat (87 + n)

/-- Base-36 digit expansion, most significant first (fuel-driven). -/
def natToBase36Aux : Nat → Nat → List Char
  | 0, _ => []
  | fuel + 1, n =>
    if n < 36 then [base36Digit n]
    else natToBase36Aux fuel (n / 36) ++ [base36Digit (n % 36)]

/-- `Math.abs(hash).toString(36)`. -/
def natToBase36 (n : Nat) : String := ⟨natToBase36Aux (n + 1) n⟩

/-- `generateId` from `src/lib/file-scanner.ts` (char codes taken as
code points; all ids here are ASCII paths). -/
def generateId (str : String) : String :=
  natToBase36 (str.data.foldl generateIdStep 0).natAbs

/-! ### `parseSeriesFromName`

The three regular expressions are realised as direct matchers.  The
lazy groups (`(.+?)`) become a shortest-split search; every greedy
quantifier in the patterns is followed by a token of a disjoint
character class, so maximal munch needs no backtracking, except for the
optional `(?:Book\s*)?` (both alternatives tried, `Book` first) and a
final `\s*(.+)$` over a whitespace-only tail (where `(.+)` keeps the
last space). -/

/-- The separator class `[-–]` (hyphen or en dash). -/
def isDashChar (c : Char) : Bool := c = '-' || c = Char.ofNat 0x2013

/-- `(\d+(?:\.\d+)?)`: maximal run of digits with an optional fraction. -/
def matchNumber (s : List Char) : Option (List Char × List Char) :=
  let ds := s.takeWhile Char.isDigit
  let r1 := s.dropWhile Char.isDigit
  if ds = [] then none
  else
    match r1 with
    | '.' :: r2 =>
      let ds2 := r2.takeWhile Char.isDigit
      let r3 := r2.dropWhile Char.isDigit
      if ds2 = [] then some (ds, r1) else some (ds ++ '.' :: ds2, r3)
    | _ => some (ds, r1)

/-- `\s*(.+)$`: at least one character after the greedy space run; on a
non-empty all-space tail the group keeps exactly the last character. -/
def matchFinalTitle (t : List Char) : Option (List Char) :=
  let r := t.dropWhile jsIsSpace
  if r ≠ [] then some r
  else if t = [] then none
  else some [t.getLastD ' ']

/-- `\s*[-–]\s*(.+)$`. -/
def matchDashTitle (s : List Char) : Option (List Char) :=
  match s.dropWhile jsIsSpace with
  | c :: r2 => if isDashChar c then matchFinalTitle r2 else none
  | [] => none

/-- Case-insensitive literal `Book` at the front (the `/i` flag). -/
def startsWithBookCI (s : List Char) : Bool :=
  charsStartWith (s.map Char.toLower) ['b', 'o', 'o', 'k']

/-- `(\d+(?:\.\d+)?)\s*[-–]\s*(.+)$`: number, then separator and title. -/
def matchNumTail1 (t : List Char) : Option (List Char × List Char) :=
  match matchNumber t with
  | some (num, r4) =>
    match matchDashTitle r4 with
    | some title => some (num, title)
    | none => none
  | none => none

/-- The tail of the first pattern after the lazy series group:
`\s*[-–]\s*(?:Book\s*)?(\d+(?:\.\d+)?)\s*[-–]\s*(.+)$`. -/
def matchSepTail1 (s : List Char) : Option (List Char × List Char) :=
  match s.dropWhile jsIsSpace with
  | c :: r2 =>
    if isDashChar c then
      let r3 := r2.dropWhile jsIsSpace
      if startsWithBookCI r3 then
        match matchNumTail1 ((r3.drop 4).dropWhile jsIsSpace) with
        | some res => some res
        | none => matchNumTail1 r3
      else matchNumTail1 r3
    else none
  | [] => none

/-- `(\d+(?:\.\d+)?)$`: number ending the string. -/
def matchNumEnd (t : List Char) : Option (List Char) :=
  match matchNumber t with
  | some (num, r4) => if r4 = [] then some num else none
  | none => none

/-- The tail of the second pattern:
`\s*[-–]\s*(?:Book\s*)?(\d+(?:\.\d+)?)$`. -/
def matchSepTail2 (s : List Char) : Option (List Char) :=
  match s.dropWhile jsIsSpace with
  | c :: r2 =>
    if isDashChar c then
      let r3 := r2.dropWhile jsIsSpace
      if startsWithBookCI r3 then
        match matchNumEnd ((r3.drop 4).dropWhile jsIsSpace) with
        | some res => some res
        | none => matchNumEnd r3
      else matchNumEnd r3
    else none
  | [] => none

/-- Shortest-split search of a lazy group `(.+?)`: the group takes the
least non-empty prefix whose remainder satisfies the tail matcher. -/
def lazySplit {α : Type} (f : List Char → Option α) :
    List Char → List Char → Option (List Char × α)
  | _, [] => none
  | g, c :: rest =>
    match f rest with
    | some a => some (g ++ [c], a)
    | none => lazySplit f (g ++ [c]) rest

/-- `(.+?)\s*[-–]\s*(.+)$` of the bracket pattern. -/
def lazyGroupDash (s : List Char) : Option (List Char × List Char) :=
  lazySplit matchDashTitle [] s

/-- The greedy `\s*` before the bracket pattern's lazy group: longest
space prefix first, then backtracking shorter ones. -/
def matchTail3Aux (s : List Char) : Nat → Option (List Char × List Char)
  | 0 => lazyGroupDash s
  | k + 1 =>
    match lazyGroupDash (s.drop (k + 1)) with
    | some r => some r
    | none => matchTail3Aux s k

/-- The tail of the third pattern after the closing bracket:
`\s*(.+?)\s*[-–]\s*(.+)$`. -/
def matchTail3 (s : List Char) : Option (List Char × List Char) :=
  matchTail3Aux s (s.takeWhile jsIsSpace).length

/-- The lazy `\[.+?\]` prefix: closing brackets tried left to right. -/
def pat3Close : List Char → Option (List Char × List Char)
  | [] => none
  | d :: ds =>
    if d = ']' then
      match matchTail3 ds with
      | some r => some r
      | none => pat3Close ds
    else pat3Close ds

/-- `^\[.+?\]\s*(.+?)\s*[-–]\s*(.+)$` (bracket content is non-empty). -/
def pattern3 (name : List Char) : Option (List Char × List Char) :=
  match name with
  | '[' :: _ :: rest => pat3Close rest
  | _ => none

/-- The result record of `parseSeriesFromName`. -/
structure ParsedName where
  series : Option String
  bookNumber : Option String
  cleanTitle : String
deriving DecidableEq, Repr

/-- `parseSeriesFromName` from `src/lib/file-scanner.ts`: the three
name patterns tried in order. -/
def parseSeriesFromName (name : String) : ParsedName :=
  match lazySplit matchSepTail1 [] name.data with
  | some (g1, num, title) =>
    { series := some (jsTrim ⟨g1⟩), bookNumber := some ⟨num⟩,
      cleanTitle := jsTrim ⟨title⟩ }
  | none =>
    match lazySplit matchSepTail2 [] name.data with
    | some (g1, num) =>
      { series := some (jsTrim ⟨g1⟩), bookNumber := some ⟨num⟩,
        cleanTitle := name }
    | none =>
      match pattern3 name.data with
      | some (g1, title) =>
        { series := some (jsTrim ⟨g1⟩), bookNumber := none,
          cleanTitle := jsTrim ⟨title⟩ }
      | none => { series := none, bookNumber := none, cleanTitle := name }

/-- The result of `extractFileMetadata` for one file (the tag-reading
I/O itself stays outside the embedding). -/
structure FileMeta where
  title : Option String
  author : Option String
  narrator : Option String
  durationSeconds : Option ℚ
  hasEmbeddedCover : Bool
deriving DecidableEq, Repr

/-- One plain-file entry of a directory listing, with its `statSync`
size. -/
structure FsEntry where
  name : String
  size : ℚ
deriving DecidableEq, Repr

/-- One element of the `audioFiles` array of `scanFolderContents`. -/
structure AudioFile where
  path : String
  size : ℚ
  isM4b : Bool
deriving DecidableEq, Repr

/-- `scanFolderContents` from `src/lib/file-scanner.ts` over an
explicit directory listing: the audio files with their join-ed paths,
the total audio size, and the `.m4b` subset. -/
def scanFolderContents (folderPath : String) (entries : List FsEntry) :
    List AudioFile × ℚ × List String :=
  let audioFiles := (entries.filter (fun e => isAudioFile e.name)).map
    (fun e => { path := pathJoin folderPath e.name, size := e.size,
                isM4b := isAudiobookFile e.name : AudioFile })
  let totalSize := audioFiles.foldl (fun s f => s + f.size) 0
  let m4bFiles := (audioFiles.filter (fun f => f.isM4b)).map (fun f => f.path)
  (audioFiles, totalSize, m4bFiles)

/-- `ScannedBookCandidate` from `src/lib/types.ts`, as populated by the
scanner's candidate literals. -/
structure ScannedBookCandidate where
  id : String
  path : String
  type : String
  title : String
  author : Option String
  narrator : Option String
  series : Option String
  seriesBookNumber : Option String
  durationSeconds : Option ℚ
  totalSizeBytes : ℚ
  fileCount : Nat
  hasEmbeddedCover : Bool
  multipleM4bFiles : Bool := false
  m4bFileCount : Option Nat := none
  m4bFilePaths : Option (List String) := none
  userDecision : Option String := none
  warnings : List String := []
  errors : List String := []
  selected : Bool := true
deriving DecidableEq, Repr

/-- The truthiness-guarded duration accumulation
(`if (meta.durationSeconds) totalDuration += meta.durationSeconds`). -/
def addTruthyDur (acc : ℚ) (d : Option ℚ) : ℚ :=
  match d with
  | some x => if x ≠ 0 then acc + x else acc
  | none => acc

/-- `processFolderAsBook` from `src/lib/file-scanner.ts`: the three
folder shapes (several `.m4b`, exactly one `.m4b`, none). -/
def processFolderAsBook (metaOf : String → FileMeta) (folderPath : String)
    (entries : List FsEntry) : Option ScannedBookCandidate :=
  let folderName := pathBasename folderPath
  let res := scanFolderContents folderPath entries
  let audioFiles := res.1
  let totalSize := res.2.1
  let m4bFiles := res.2.2
  if audioFiles.length = 0 then none
  else if m4bFiles.length > 1 then
    let pn := parseSeriesFromName folderName
    let firstMeta := metaOf (m4bFiles.headD "")
    let totalDuration :=
      m4bFiles.foldl (fun acc p => addTruthyDur acc (metaOf p).durationSeconds) 0
    some { id := generateId folderPath
           path := folderPath
           type := "Folder"
           title := jsOrStr (jsOrOptStr firstMeta.title pn.cleanTitle) folderName
           author := firstMeta.author
           narrator := firstMeta.narrator
           series := pn.series
           seriesBookNumber := pn.bookNumber
           durationSeconds := if totalDuration ≠ 0 then some totalDuration else none
           totalSizeBytes := totalSize
           fileCount := audioFiles.length
           hasEmbeddedCover := firstMeta.hasEmbeddedCover
           multipleM4bFiles := true
           m4bFileCount := some m4bFiles.length
           m4bFilePaths := some m4bFiles
           userDecision := none
           warnings := ["Multiple .m4b files (" ++ toString m4bFiles.length ++
             "): user decision required"]
           errors := []
           selected := true }
  else if m4bFiles.length = 1 then
    let meta := metaOf (m4bFiles.headD "")
    let pn := parseSeriesFromName folderName
    some { id := generateId folderPath
           path := folderPath
           type := "Folder"
           title := jsOrStr (jsOrOptStr meta.title pn.cleanTitle) folderName
           author := meta.author
           narrator := meta.narrator
           series := pn.series
           seriesBookNumber := pn.bookNumber
           durationSeconds := meta.durationSeconds
           totalSizeBytes := totalSize
           fileCount := audioFiles.length
           hasEmbeddedCover := meta.hasEmbeddedCover }
  else
    let rep := audioFiles.foldl (fun best f => if f.size > best.size then f else best)
      (audioFiles.headD { path := "", size := 0, isM4b := false })
    let repMeta := metaOf rep.path
    let totalDuration :=
      audioFiles.foldl (fun acc f => addTruthyDur acc (metaOf f.path).durationSeconds) 0
    let pn := parseSeriesFromName folderName
    some { id := generateId folderPath
           path := folderPath
           type := "Folder"
           title := jsOrStr (jsOrOptStr repMeta.title pn.cleanTitle) folderName
           author := repMeta.author
           narrator := repMeta.narrator
           series := pn.series
           seriesBookNumber := pn.bookNumber
           durationSeconds := if totalDuration ≠ 0 then some totalDuration else none
           totalSizeBytes := totalSize
           fileCount := audioFiles.length
           hasEmbeddedCover := repMeta.hasEmbeddedCover }

/-! ## The commit route (`src/app/api/files/commit/route.ts`)

Authentication, the covers pipeline and blob upload are outside the
embedded state; `upsertScannedBook` is referenced by the route but its
body is not in the sources, so it is modelled from the spec's §4.2
merge policy.  `fs.statSync(...).size` enters as the `sizeOf` oracle. -/

/-- The argument object of `upsertScannedBook` as built by the route. -/
structure ScannedBookPayload where
  path : String
  type : String
  title : String
  author : Option String
  narrator : Option String
  series : Option String
  seriesBookNumber : Option String
  durationSeconds : Option ℚ
  totalSizeBytes : ℚ
  fileCount : Nat
  hasEmbeddedCover : Bool
deriving DecidableEq, Repr

/-- Modelled from the spec: the selective merge a scanned payload
applies to an existing `manual` row — fill only null/empty fields,
leave `source` and the user fields alone, clear the missing flag. -/
def scannedSelectiveMerge (r : BookRow) (p : ScannedBookPayload)
    (now : String) : BookRow :=
  { r with
    type := coalesce r.type (some p.type)
    title := if isNullOrEmptyStr r.title then some p.title else r.title
    author := if isNullOrEmptyStr r.author then p.author else r.author
    narrator := if isNullOrEmptyStr r.narrator then p.narrator else r.narrator
    duration_seconds := coalesce r.duration_seconds p.durationSeconds
    has_embedded_cover := coalesce r.has_embedded_cover (some p.hasEmbeddedCover)
    total_size_bytes := coalesce r.total_size_bytes (some p.totalSizeBytes)
    file_count := coalesce r.file_count (some (p.fileCount : ℚ))
    series := if isNullOrEmptyStr r.series then p.series else r.series
    series_book_number := coalesce r.series_book_number p.seriesBookNumber
    missing_from_csv := false
    date_updated := now }

/-- Modelled from the spec: the full merge a scanned payload applies to
an existing non-`manual` row — overwrite the descriptive fields, set
`source` to `scanned`, leave the user fields alone, clear the missing
flag. -/
def scannedFullMerge (r : BookRow) (p : ScannedBookPayload)
    (now : String) : BookRow :=
  { r with
    type := some p.type
    title := some p.title
    author := p.author
    narrator := p.narrator
    duration_seconds := p.durationSeconds
    has_embedded_cover := some p.hasEmbeddedCover
    total_size_bytes := some p.totalSizeBytes
    file_count := some (p.fileCount : ℚ)
    series := p.series
    series_book_number := p.seriesBookNumber
    source := some "scanned"
    missing_from_csv := false
    date_updated := now }

/-- Modelled from the spec: the insert of a scanned payload at a new
path — source `scanned`, user fields at their defaults. -/
def insertScannedRow (p : ScannedBookPayload) (now : String) : BookRow :=
  { path := p.path
    type := some p.type
    title := some p.title
    author := p.author
    narrator := p.narrator
    duration_seconds := p.durationSeconds
    has_embedded_cover := some p.hasEmbeddedCover
    total_size_bytes := some p.totalSizeBytes
    file_count := some (p.fileCount : ℚ)
    is_duplicate := none
    series := p.series
    series_book_number := p.seriesBookNumber
    series_ended := none
    series_name_raw := none
    series_exact_name_raw := none
    source := some "scanned"
    status := .not_started
    book_rating := none
    tags := none
    notes := none
    cover_image_path := none
    missing_from_csv := false
    date_added := now
    date_updated := now }

/-- Modelled from the spec: `upsertScannedBook` — update the row of the
path per the merge policy, or insert; reports `inserted`/`updated`. -/
def upsertScannedBook (db : List BookRow) (p : ScannedBookPayload)
    (now : String) : List BookRow × String :=
  match db.find? (fun r => r.path == p.path) with
  | some r0 =>
    if r0.source = some "manual" then
      (db.map (fun r => if r.path = p.path then scannedSelectiveMerge r p now else r),
       "updated")
    else
      (db.map (fun r => if r.path = p.path then scannedFullMerge r p now else r),
       "updated")
  | none => (db ++ [insertScannedRow p now], "inserted")

/-- `ReviewedBookCandidate` from `src/lib/types.ts` as consumed by the
commit route: a candidate with a possible user decision. -/
structure ReviewedBookCandidate where
  path : String
  type : String
  title : String
  author : Option String
  narrator : Option String
  series : Option String
  seriesBookNumber : Option String
  durationSeconds : Option ℚ
  totalSizeBytes : ℚ
  fileCount : Nat
  hasEmbeddedCover : Bool
  multipleM4bFiles : Bool := false
  m4bFilePaths : Option (List String) := none
  userDecision : Option String := none
deriving DecidableEq, Repr

/-- `FileCommitItemResult` (path and outcome of one item). -/
structure FileCommitItemResult where
  path : String
  status : String
deriving DecidableEq, Repr

/-- The `summary` object of the commit response. -/
structure CommitSummary where
  total : Nat
  inserted : Nat
  updated : Nat
  skipped : Nat
  errors : Nat
deriving DecidableEq, Repr

/-- The commit route's response: a 400 rejection or the 200 summary. -/
inductive CommitResponse where
  | badRequest (error : String)
  | ok (summary : CommitSummary) (results : List FileCommitItemResult)
deriving DecidableEq, Repr

/-- One iteration of the commit loop: the multi-`.m4b` split decision
imports each part as its own `SingleFile`, anything else upserts the
candidate itself; exactly one item result is pushed either way.  State:
catalog, results, inserted count, updated count. -/
def commitOne (sizeOf : String → ℚ) (now : String)
    (st : List BookRow × List FileCommitItemResult × Nat × Nat)
    (book : ReviewedBookCandidate) :
    List BookRow × List FileCommitItemResult × Nat × Nat :=
  let db := st.1
  let results := st.2.1
  let ins := st.2.2.1
  let upd := st.2.2.2
  if book.multipleM4bFiles ∧ book.userDecision = some "multiple" ∧
      book.m4bFilePaths ≠ none then
    let inner := (book.m4bFilePaths.getD []).foldl
      (fun acc p =>
        let payload : ScannedBookPayload :=
          { path := p
            type := "SingleFile"
            title := pathBasenameNoExt p
            author := book.author
            narrator := book.narrator
            series := book.series
            seriesBookNumber := book.seriesBookNumber
            durationSeconds := none
            totalSizeBytes := sizeOf p
            fileCount := 1
            hasEmbeddedCover := book.hasEmbeddedCover }
        let r := upsertScannedBook acc.1 payload now
        (r.1,
         if r.2 = "inserted" then acc.2.1 + 1 else acc.2.1,
         if r.2 = "updated" then acc.2.2 + 1 else acc.2.2))
      (db, ins, upd)
    (inner.1, results ++ [{ path := book.path, status := "inserted" }],
     inner.2.1, inner.2.2)
  else
    let payload : ScannedBookPayload :=
      { path := book.path
        type := book.type
        title := book.title
        author := book.author
        narrator := book.narrator
        series := book.series
        seriesBookNumber := book.seriesBookNumber
        durationSeconds := book.durationSeconds
        totalSizeBytes := book.totalSizeBytes
        fileCount := book.fileCount
        hasEmbeddedCover := book.hasEmbeddedCover }
    let r := upsertScannedBook db payload now
    (r.1, results ++ [{ path := book.path, status := r.2 }],
     if r.2 = "inserted" then ins + 1 else ins,
     if r.2 = "updated" then upd + 1 else upd)

/-- The commit route's `POST` handler (`src/app/api/files/commit/route.ts`)
as a catalog transformer: empty-batch rejection, the pending-decision
gate before any write, then the per-item loop and the summary. -/
def commitBooks (sizeOf : String → ℚ) (now : String) (db : List BookRow)
    (books : List ReviewedBookCandidate) : CommitResponse × List BookRow :=
  if books.length = 0 then (.badRequest "No books to import", db)
  else
    let pending := books.filter
      (fun b => b.multipleM4bFiles && !(jsTruthyOptStr b.userDecision))
    if pending.length > 0 then
      (.badRequest (toString pending.length ++
        " folder(s) with multiple .m4b files require a user decision before import"),
       db)
    else
      let final := books.foldl (commitOne sizeOf now) (db, [], 0, 0)
      (.ok { total := books.length
             inserted := final.2.2.1
             updated := final.2.2.2
             skipped := 0
             errors := 0 } final.2.1,
       final.1)

/-! ### Concrete scanner and commit scenarios -/

def c3meta : String → FileMeta := fun p =>
  if p = "/lib/Foo/book.m4b" then
    { title := none, author := none, narrator := none,
      durationSeconds := none, hasEmbeddedCover := false }
  else
    { title := none, author := none, narrator := none,
      durationSeconds := some 100, hasEmbeddedCover := false }

def c3entries : List FsEntry :=
  [{ name := "book.m4b", size := 10 }, { name := "extra.mp3", size := 5 }]

def c3wmeta : String → FileMeta := fun _ =>
  { title := none, author := none, narrator := none,
    durationSeconds := some 7, hasEmbeddedCover := false }

def c4pending : ReviewedBookCandidate :=
  { path := "/lib/Multi"
    type := "Folder"
    title := "Multi"
    author := none
    narrator := none
    series := none
    seriesBookNumber := none
    durationSeconds := none
    totalSizeBytes := 1
    fileCount := 2
    hasEmbeddedCover := false
    multipleM4bFiles := true
    m4bFilePaths := some ["/lib/Multi/a.m4b", "/lib/Multi/b.m4b"]
    userDecision := none }

def c4ready : ReviewedBookCandidate :=
  { c4pending with userDecision := some "single" }

end Audiobooks

namespace Audiobooks

/-! ## Theorems for claim C5 -/

/-- C5: a record is fully rated iff `bookRating` is non-null and every
narrator obtained by comma-splitting/trimming the narrator field has a
non-null rating in the map; with zero narrator tokens the predicate
reduces to `bookRating` being non-null.  The concrete scenario of the
claim: `bookRating = 4`, `narrator = "A, B"`, ratings `{A ↦ 5, B ↦ null}`
is not fully rated, and setting B's rating to any value makes it fully
rated. -/
theorem fully_rated_characterisation
    (bookRating : Option ℚ) (narrator : Option String)
    (ratings : List (String × Option ℚ)) :
    (isBookFullyRated bookRating (parseNarrators narrator) ratings = true ↔
      (bookRating ≠ none ∧
        ∀ n ∈ parseNarrators narrator,
          ∃ v : ℚ, ratings.lookup n = some (some v))) ∧
    (parseNarrators narrator = [] →
      (isBookFullyRated bookRating (parseNarrators narrator) ratings = true ↔
        bookRating ≠ none)) ∧
    (isBookFullyRated (some 4) (parseNarrators (some "A, B"))
        [("A", some 5), ("B", none)] = false) ∧
    (∀ r : ℚ, 1 ≤ r → r ≤ 5 →
      isBookFullyRated (some 4) (parseNarrators (some "A, B"))
        [("A", some 5), ("B", some r)] = true) := by
  refine ⟨?_, ?_, ?_, ?_⟩
  · constructor
    · intro h
      cases hbr : bookRating with
      | none => simp [isBookFullyRated, hbr] at h
      | some q =>
        refine ⟨by simp [hbr], ?_⟩
        intro n hn
        rw [hbr] at h
        simp only [isBookFullyRated] at h
        by_cases hz : (parseNarrators narrator).length = 0
        · rw [List.length_eq_zero] at hz
          simp [hz] at hn
        · simp only [hz, ite_false] at h
          have := List.all_eq_true.mp h n hn
          cases hl : (ratings.lookup n) with
          | none => simp [hl] at this
          | some o =>
            cases o with
            | none => simp [hl] at this
            | some v => exact ⟨v, rfl⟩
    · rintro ⟨hbr, hall⟩
      cases hbrv : bookRating with
      | none => exact absurd hbrv hbr
      | some q =>
        simp only [isBookFullyRated]
        by_cases hz : (parseNarrators narrator).length = 0
        · simp [hz]
        · simp only [hz, ite_false]
          refine List.all_eq_true.mpr ?_
          intro n hn
          obtain ⟨v, hv⟩ := hall n hn
          simp [hv]
  · intro hempty
    rw [hempty]
    cases bookRating with
    | none => simp [isBookFullyRated]
    | some q => simp [isBookFullyRated]
  · decide
  · intro r _ _
    have hn : parseNarrators (some "A, B") = ["A", "B"] := by decide
    rw [hn]
    simp only [isBookFullyRated]
    simp [List.lookup]

/-- Witness for C5 at a concrete input: ratings `{A ↦ 5, B ↦ 3}` with
`bookRating = 4` and narrator `"A, B"` satisfy the characterisation. -/
theorem fully_rated_characterisation_witness :
    isBookFullyRated (some 4) (parseNarrators (some "A, B"))
      [("A", some 5), ("B", some 3)] = true :=
  (fully_rated_characterisation (some 4) (some "A, B")
    [("A", some 5), ("B", some 3)]).2.2.2 3 (by norm_num) (by norm_num)

/-! ## Sort lemmas -/

theorem cmpQ_le_zero {x y : ℚ} : cmpQ x y ≤ 0 ↔ x ≤ y := by
  unfold cmpQ
  split_ifs with h1 h2
  · simp; linarith
  · simp; linarith
  · simp; linarith

theorem bookComparator_rating (d : String) (a b : BookSummaryWithNarrators) :
    bookComparator "book_rating" d a b =
      match a.book_rating, b.book_rating with
      | none, none => 0
      | none, some _ => 1
      | some _, none => -1
      | some x, some y => if d = "asc" then cmpQ x y else cmpQ y x := rfl

theorem ratingLe_trans (d : String) (a b c : BookSummaryWithNarrators)
    (hab : bookComparator "book_rating" d a b ≤ 0)
    (hbc : bookComparator "book_rating" d b c ≤ 0) :
    bookComparator "book_rating" d a c ≤ 0 := by
  rw [bookComparator_rating] at *
  rcases ha : a.book_rating with _ | x <;> rcases hb : b.book_rating with _ | y <;>
    rcases hc : c.book_rating with _ | z <;>
    simp_all <;> by_cases hd : d = "asc" <;>
    simp_all [cmpQ_le_zero] <;> linarith

theorem ratingLe_total (d : String) (a b : BookSummaryWithNarrators) :
    bookComparator "book_rating" d a b ≤ 0 ∨
      bookComparator "book_rating" d b a ≤ 0 := by
  rw [bookComparator_rating, bookComparator_rating]
  rcases a.book_rating with _ | x <;> rcases b.book_rating with _ | y <;>
    by_cases hd : d = "asc" <;> simp_all [cmpQ_le_zero] <;> exact le_total _ _

theorem bookComparator_sbn (d : String) (a b : BookSummaryWithNarrators) :
    bookComparator "series_book_number" d a b =
      (if d = "asc" then
        jsNumSubSign (parseSeriesNumber a.series_book_number)
          (parseSeriesNumber b.series_book_number)
      else
        jsNumSubSign (parseSeriesNumber b.series_book_number)
          (parseSeriesNumber a.series_book_number)) := rfl

theorem jsNumSubSign_trans (a b c : JsNum)
    (hab : jsNumSubSign a b ≤ 0) (hbc : jsNumSubSign b c ≤ 0) :
    jsNumSubSign a c ≤ 0 := by
  rcases a with x | _ | _ <;> rcases b with y | _ | _ <;> rcases c with z | _ | _ <;>
    simp_all [jsNumSubSign, cmpQ_le_zero] <;> linarith

theorem jsNumSubSign_total (a b : JsNum) :
    jsNumSubSign a b ≤ 0 ∨ jsNumSubSign b a ≤ 0 := by
  rcases a with x | _ | _ <;> rcases b with y | _ | _ <;>
    simp_all [jsNumSubSign, cmpQ_le_zero] <;> exact le_total _ _

theorem sbnLe_trans (d : String) (a b c : BookSummaryWithNarrators)
    (hab : bookComparator "series_book_number" d a b ≤ 0)
    (hbc : bookComparator "series_book_number" d b c ≤ 0) :
    bookComparator "series_book_number" d a c ≤ 0 := by
  rw [bookComparator_sbn] at *
  by_cases hd : d = "asc"
  · simp_all
    exact jsNumSubSign_trans _ _ _ hab hbc
  · simp_all
    exact jsNumSubSign_trans _ _ _ hbc hab

theorem sbnLe_total (d : String) (a b : BookSummaryWithNarrators) :
    bookComparator "series_book_number" d a b ≤ 0 ∨
      bookComparator "series_book_number" d b a ≤ 0 := by
  rw [bookComparator_sbn, bookComparator_sbn]
  by_cases hd : d = "asc" <;> simp_all <;> exact jsNumSubSign_total _ _

/-- With no filters, the filter stages are the identity. -/
theorem applyBookFilters_none (books : List BookSummaryWithNarrators) :
    applyBookFilters books none = books := rfl

/-- `getBooksFiltered` with no filters and an allowed sort field is the
stable sort by that field's comparator. -/
theorem getBooksFiltered_none_sort (books : List BookSummaryWithNarrators)
    (f d : String) (hf : ALLOWED_BOOK_SORT_FIELDS.contains f = true)
    (hfe : f ≠ "") (hde : d ≠ "") :
    getBooksFiltered books none (some { field := f, direction := d }) =
      books.mergeSort (fun a b => decide (bookComparator f d a b ≤ 0)) := by
  unfold getBooksFiltered
  rw [applyBookFilters_none]
  simp only [Option.map_some', jsOrOptStr, if_neg hfe, if_neg hde, hf, if_pos]

end Audiobooks

namespace Audiobooks

/-! ## Theorems for claim C8 -/

/-- C8: sorting by `book_rating` puts every null-rated record after every
non-null one in both directions, orders the non-null ratings
increasingly (ascending) resp. decreasingly (descending), and on the
concrete ratings `[3, null, 5]` yields `[3, 5, null]` ascending and
`[5, 3, null]` descending. -/
theorem rating_sort_nulls_last (books : List BookSummaryWithNarrators) :
    ((getBooksFiltered books none
        (some { field := "book_rating", direction := "asc" })).Pairwise
      (fun a b =>
        match a.book_rating, b.book_rating with
        | none, some _ => False
        | some x, some y => x ≤ y
        | _, _ => True)) ∧
    ((getBooksFiltered books none
        (some { field := "book_rating", direction := "desc" })).Pairwise
      (fun a b =>
        match a.book_rating, b.book_rating with
        | none, some _ => False
        | some x, some y => y ≤ x
        | _, _ => True)) ∧
    getBooksFiltered [c8r3, c8rN, c8r5] none
      (some { field := "book_rating", direction := "asc" }) = [c8r3, c8r5, c8rN] ∧
    getBooksFiltered [c8r3, c8rN, c8r5] none
      (some { field := "book_rating", direction := "desc" }) = [c8r5, c8r3, c8rN] := by
  refine ⟨?_, ?_, ?_, ?_⟩
  · rw [getBooksFiltered_none_sort books "book_rating" "asc" (by decide)
      (by decide) (by decide)]
    have hs := @List.sorted_mergeSort _
      (fun a b => decide (bookComparator "book_rating" "asc" a b ≤ 0))
      (fun a b c hab hbc => by
        simp only [decide_eq_true_eq] at *
        exact ratingLe_trans "asc" a b c hab hbc)
      (fun a b => by
        simp only [Bool.or_eq_true, decide_eq_true_eq]
        exact ratingLe_total "asc" a b) books
    refine hs.imp ?_
    intro a b hab
    simp only [decide_eq_true_eq, bookComparator_rating] at hab
    rcases ha : a.book_rating with _ | x <;> rcases hb : b.book_rating with _ | y <;>
      simp_all [cmpQ_le_zero]
  · rw [getBooksFiltered_none_sort books "book_rating" "desc" (by decide)
      (by decide) (by decide)]
    have hs := @List.sorted_mergeSort _
      (fun a b => decide (bookComparator "book_rating" "desc" a b ≤ 0))
      (fun a b c hab hbc => by
        simp only [decide_eq_true_eq] at *
        exact ratingLe_trans "desc" a b c hab hbc)
      (fun a b => by
        simp only [Bool.or_eq_true, decide_eq_true_eq]
        exact ratingLe_total "desc" a b) books
    refine hs.imp ?_
    intro a b hab
    simp only [decide_eq_true_eq, bookComparator_rating] at hab
    rcases ha : a.book_rating with _ | x <;> rcases hb : b.book_rating with _ | y <;>
      simp_all [cmpQ_le_zero]
  · simp [getBooksFiltered, applyBookFilters, List.mergeSort, List.splitInTwo,
      List.merge, bookComparator, c8r3, c8rN, c8r5, emptyBook, cmpQ, jsOrOptStr,
      ALLOWED_BOOK_SORT_FIELDS] <;> norm_num
  · simp [getBooksFiltered, applyBookFilters, List.mergeSort, List.splitInTwo,
      List.merge, bookComparator, c8r3, c8rN, c8r5, emptyBook, cmpQ, jsOrOptStr,
      ALLOWED_BOOK_SORT_FIELDS] <;> norm_num

end Audiobooks

namespace Audiobooks

/-! ## Theorems for claim C2 -/

/-- C2 counterexample: sorting by the series-position field in
**descending** direction puts the record with the absent position
**first**, not last — unknown positions compare as `+Infinity`, and the
descending comparator therefore moves them to the front. -/
theorem series_position_desc_unknown_first :
    getBooksFiltered [c2p1, c2pN] none
      (some { field := "series_book_number", direction := "desc" }) =
      [c2pN, c2p1] ∧ c2pN ≠ c2p1 := by
  constructor
  · simp [getBooksFiltered, applyBookFilters, List.mergeSort, List.splitInTwo,
      List.merge, bookComparator, c2p1, c2pN, emptyBook, jsNumSubSign, cmpQ,
      parseSeriesNumber, jsParseFloat, digitsToNat, jsIsSpace, charsStartWith,
      jsOrOptStr, ALLOWED_BOOK_SORT_FIELDS] <;> norm_num
  · simp [c2p1, c2pN, emptyBook]

/-- C2 amended: when sorting by the series-position field, records with
an unparsable or absent position (which compare as `+Infinity`) come
after every record with a finite parsed position in **ascending**
direction, and **before** every such record in **descending** direction. -/
theorem series_position_unknown_placement (books : List BookSummaryWithNarrators) :
    ((getBooksFiltered books none
        (some { field := "series_book_number", direction := "asc" })).Pairwise
      (fun a b =>
        match parseSeriesNumber a.series_book_number,
            parseSeriesNumber b.series_book_number with
        | .posInf, .val _ => False
        | _, _ => True)) ∧
    ((getBooksFiltered books none
        (some { field := "series_book_number", direction := "desc" })).Pairwise
      (fun a b =>
        match parseSeriesNumber a.series_book_number,
            parseSeriesNumber b.series_book_number with
        | .val _, .posInf => False
        | _, _ => True)) := by
  constructor
  · rw [getBooksFiltered_none_sort books "series_book_number" "asc" (by decide)
      (by decide) (by decide)]
    have hs := @List.sorted_mergeSort _
      (fun a b => decide (bookComparator "series_book_number" "asc" a b ≤ 0))
      (fun a b c hab hbc => by
        simp only [decide_eq_true_eq] at *
        exact sbnLe_trans "asc" a b c hab hbc)
      (fun a b => by
        simp only [Bool.or_eq_true, decide_eq_true_eq]
        exact sbnLe_total "asc" a b) books
    refine hs.imp ?_
    intro a b hab
    simp only [decide_eq_true_eq, bookComparator_sbn, if_pos] at hab
    rcases ha : parseSeriesNumber a.series_book_number with x | _ | _ <;>
      rcases hb : parseSeriesNumber b.series_book_number with y | _ | _ <;>
      simp_all [jsNumSubSign]
  · rw [getBooksFiltered_none_sort books "series_book_number" "desc" (by decide)
      (by decide) (by decide)]
    have hs := @List.sorted_mergeSort _
      (fun a b => decide (bookComparator "series_book_number" "desc" a b ≤ 0))
      (fun a b c hab hbc => by
        simp only [decide_eq_true_eq] at *
        exact sbnLe_trans "desc" a b c hab hbc)
      (fun a b => by
        simp only [Bool.or_eq_true, decide_eq_true_eq]
        exact sbnLe_total "desc" a b) books
    refine hs.imp ?_
    intro a b hab
    simp only [decide_eq_true_eq, bookComparator_sbn] at hab
    rcases ha : parseSeriesNumber a.series_book_number with x | _ | _ <;>
      rcases hb : parseSeriesNumber b.series_book_number with y | _ | _ <;>
      simp_all [jsNumSubSign]

end Audiobooks

namespace Audiobooks

/-! ## Theorems for claim C9 -/

/-- C9 counterexample: an unknown sort field with a **descending**
requested direction does not reproduce the title-**ascending** order —
the fallback only replaces the field, the requested direction is kept. -/
theorem unknown_sort_field_keeps_direction :
    getBooksFiltered [c9a, c9b] none
        (some { field := "bogus", direction := "desc" }) ≠
      getBooksFiltered [c9a, c9b] none
        (some { field := "title", direction := "asc" }) ∧
    getBooksFiltered [c9a, c9b] none
        (some { field := "bogus", direction := "desc" }) = [c9b, c9a] ∧
    getBooksFiltered [c9a, c9b] none
        (some { field := "title", direction := "asc" }) = [c9a, c9b] := by
  have h1 : getBooksFiltered [c9a, c9b] none
      (some { field := "bogus", direction := "desc" }) = [c9b, c9a] := by
    simp [getBooksFiltered, applyBookFilters, List.mergeSort, List.splitInTwo,
      List.merge, bookComparator, c9a, c9b, emptyBook, localeCmp, jsToLower,
      jsOrOptStr, ALLOWED_BOOK_SORT_FIELDS, String.lt_iff_toList_lt] <;> decide
  have h2 : getBooksFiltered [c9a, c9b] none
      (some { field := "title", direction := "asc" }) = [c9a, c9b] := by
    simp [getBooksFiltered, applyBookFilters, List.mergeSort, List.splitInTwo,
      List.merge, bookComparator, c9a, c9b, emptyBook, localeCmp, jsToLower,
      jsOrOptStr, ALLOWED_BOOK_SORT_FIELDS, String.lt_iff_toList_lt] <;> decide
  refine ⟨?_, h1, h2⟩
  rw [h1, h2]
  simp [c9a, c9b, emptyBook]

/-- C9 amended: a sort request whose field is not in the whitelist falls
back to sorting by **title with the requested direction preserved** (not
forced to ascending): the result equals that of an explicit title sort
in the same direction, for every record list and filter set. -/
theorem unknown_sort_field_falls_back_to_title
    (books : List BookSummaryWithNarrators) (filters : Option BookFilters)
    (sort : BookSort)
    (h : ALLOWED_BOOK_SORT_FIELDS.contains sort.field = false) :
    getBooksFiltered books filters (some sort) =
      getBooksFiltered books filters
        (some { field := "title", direction := sort.direction }) := by
  unfold getBooksFiltered
  by_cases hf : sort.field = ""
  · simp only [Option.map_some', jsOrOptStr, hf, if_pos, ite_self]
  · have htf : jsOrOptStr (some sort.field) "title" = sort.field := by
      simp [jsOrOptStr, hf]
    have hlhs :
        (if ALLOWED_BOOK_SORT_FIELDS.contains
            (jsOrOptStr (some sort.field) "title") then
          jsOrOptStr (some sort.field) "title"
        else "title") = "title" := by
      rw [htf, h]
      simp
    simp only [Option.map_some']
    rw [hlhs]
    have hrhs :
        (if ALLOWED_BOOK_SORT_FIELDS.contains (jsOrOptStr (some "title") "title") then
          jsOrOptStr (some "title") "title"
        else "title") = "title" := by decide
    rw [hrhs]

/-- Witness for the amended C9 at a concrete input: field "bogus",
direction "desc". -/
theorem unknown_sort_field_falls_back_to_title_witness :
    getBooksFiltered [c9a, c9b] none
        (some { field := "bogus", direction := "desc" }) =
      getBooksFiltered [c9a, c9b] none
        (some { field := "title", direction := "desc" }) :=
  unknown_sort_field_falls_back_to_title [c9a, c9b] none
    { field := "bogus", direction := "desc" } (by decide)

end Audiobooks

namespace Audiobooks

/-! ## Upsert lemmas -/

theorem coalesce_ne_none {α : Type} (a b : Option α) (h : a ≠ none) :
    coalesce a b = a := by
  cases a <;> simp_all [coalesce]

theorem coalesce_none_left {α : Type} (b : Option α) : coalesce none b = b := rfl

/-- In a table with pairwise distinct paths, the lookup of a member's
path finds that member. -/
theorem find?_path_of_nodup (db : List BookRow)
    (hnd : (db.map (·.path)).Nodup) (r : BookRow) (hr : r ∈ db) :
    db.find? (fun x => x.path == r.path) = some r := by
  induction db with
  | nil => cases hr
  | cons x xs ih =>
    rcases List.mem_cons.mp hr with hx | hxs
    · subst hx
      exact List.find?_cons_of_pos _ (by simp)
    · have hnd' := List.nodup_cons.mp hnd
      have hne : (x.path == r.path) = false := by
        by_contra hne
        have : x.path = r.path := by
          cases hb : (x.path == r.path)
          · exact absurd hb hne
          · exact beq_iff_eq.mp hb
        have hmem : x.path ∈ xs.map (·.path) := by
          rw [this]
          exact List.mem_map.mpr ⟨r, hxs, rfl⟩
        exact hnd'.1 hmem
      rw [List.find?_cons_of_neg _ (by simp [hne]), ih hnd'.2 hxs]

end Audiobooks

namespace Audiobooks

/-! ## Theorems for claim C1 -/

/-- C1: re-committing a path that already exists keeps the user fields
(`status`, `book_rating`, `tags`, `notes`) and clears
`missing_from_csv`; for a `manual`-source row every descriptive field is
replaced only when the stored value is null (or, for the text fields,
null-or-empty) and `source` is untouched; for any other source every
descriptive field is replaced with the incoming value. -/
theorem upsert_merge_policy (db : List BookRow) (b : ParsedBook) (now : String)
    (hnd : (db.map (·.path)).Nodup)
    (r : BookRow) (hr : r ∈ db) (hpath : r.path = b.path) :
    ∃ r' ∈ upsertBooks [b] db now,
      r'.path = r.path ∧
      r'.status = r.status ∧ r'.book_rating = r.book_rating ∧
      r'.tags = r.tags ∧ r'.notes = r.notes ∧
      r'.missing_from_csv = false ∧
      (r.source = some "manual" →
        r'.source = r.source ∧
        (r.type ≠ none → r'.type = r.type) ∧
        (r.type = none → r'.type = some b.type) ∧
        (isNullOrEmptyStr r.title = false → r'.title = r.title) ∧
        (isNullOrEmptyStr r.title = true → r'.title = some b.title) ∧
        (isNullOrEmptyStr r.author = false → r'.author = r.author) ∧
        (isNullOrEmptyStr r.author = true → r'.author = b.author) ∧
        (isNullOrEmptyStr r.narrator = false → r'.narrator = r.narrator) ∧
        (isNullOrEmptyStr r.narrator = true → r'.narrator = b.narrator) ∧
        (r.duration_seconds ≠ none → r'.duration_seconds = r.duration_seconds) ∧
        (r.duration_seconds = none → r'.duration_seconds = b.duration_seconds) ∧
        (r.has_embedded_cover ≠ none → r'.has_embedded_cover = r.has_embedded_cover) ∧
        (r.has_embedded_cover = none → r'.has_embedded_cover = b.has_embedded_cover) ∧
        (r.total_size_bytes ≠ none → r'.total_size_bytes = r.total_size_bytes) ∧
        (r.total_size_bytes = none → r'.total_size_bytes = b.total_size_bytes) ∧
        (r.file_count ≠ none → r'.file_count = r.file_count) ∧
        (r.file_count = none → r'.file_count = b.file_count) ∧
        (r.is_duplicate ≠ none → r'.is_duplicate = r.is_duplicate) ∧
        (r.is_duplicate = none → r'.is_duplicate = b.is_duplicate) ∧
        (isNullOrEmptyStr r.series = false → r'.series = r.series) ∧
        (isNullOrEmptyStr r.series = true → r'.series = b.series) ∧
        (r.series_book_number ≠ none → r'.series_book_number = r.series_book_number) ∧
        (r.series_book_number = none → r'.series_book_number = b.series_book_number) ∧
        (r.series_ended ≠ none → r'.series_ended = r.series_ended) ∧
        (r.series_ended = none → r'.series_ended = b.series_ended) ∧
        (r.series_name_raw ≠ none → r'.series_name_raw = r.series_name_raw) ∧
        (r.series_name_raw = none → r'.series_name_raw = b.series_name_raw) ∧
        (r.series_exact_name_raw ≠ none → r'.series_exact_name_raw = r.series_exact_name_raw) ∧
        (r.series_exact_name_raw = none → r'.series_exact_name_raw = b.series_exact_name_raw)) ∧
      (r.source ≠ some "manual" →
        r'.type = some b.type ∧ r'.title = some b.title ∧
        r'.author = b.author ∧ r'.narrator = b.narrator ∧
        r'.duration_seconds = b.duration_seconds ∧
        r'.has_embedded_cover = b.has_embedded_cover ∧
        r'.total_size_bytes = b.total_size_bytes ∧
        r'.file_count = b.file_count ∧ r'.is_duplicate = b.is_duplicate ∧
        r'.series = b.series ∧ r'.series_book_number = b.series_book_number ∧
        r'.series_ended = b.series_ended ∧
        r'.series_name_raw = b.series_name_raw ∧
        r'.series_exact_name_raw = b.series_exact_name_raw) := by
  have hfind : db.find? (fun x => x.path == b.path) = some r := by
    rw [← hpath]
    exact find?_path_of_nodup db hnd r hr
  have hstep : upsertOne db b now =
      (if r.source = some "manual" then
        db.map (fun x => if x.path = b.path then selectiveMergeManual x b now else x)
      else
        db.map (fun x => if x.path = b.path then fullMergeCsv x b now else x)) := by
    unfold upsertOne
    rw [hfind]
  show ∃ r' ∈ upsertOne db b now, _
  rw [hstep]
  by_cases hsrc : r.source = some "manual"
  · rw [if_pos hsrc]
    refine ⟨selectiveMergeManual r b now,
      List.mem_map.mpr ⟨r, hr, by rw [if_pos hpath]⟩,
      rfl, rfl, rfl, rfl, rfl, rfl, ?_, fun hc => absurd hsrc hc⟩
    intro _
    repeat' apply And.intro
    all_goals first
      | rfl
      | (intro h
         simp only [selectiveMergeManual]
         rw [coalesce_ne_none _ _ h])
      | (intro h
         simp [selectiveMergeManual, h, coalesce])
  · rw [if_neg hsrc]
    exact ⟨fullMergeCsv r b now,
      List.mem_map.mpr ⟨r, hr, by rw [if_pos hpath]⟩,
      rfl, rfl, rfl, rfl, rfl, rfl, fun hc => absurd hc hsrc,
      fun _ => ⟨rfl, rfl, rfl, rfl, rfl, rfl, rfl, rfl, rfl, rfl, rfl, rfl,
        rfl, rfl⟩⟩

/-- Witness for C1: committing path `p` a second time with a different
author leaves the author (and source) of the `manual` row unchanged, but
replaces the author of the `scanned` row. -/
theorem upsert_merge_policy_witness :
    (∃ r' ∈ upsertBooks [c1Incoming] [c1ManualRow] "t",
      r'.author = some "X" ∧ r'.source = some "manual" ∧
      r'.missing_from_csv = false) ∧
    (∃ r' ∈ upsertBooks [c1Incoming] [c1ScannedRow] "t",
      r'.author = some "Y" ∧ r'.missing_from_csv = false) := by
  constructor
  · obtain ⟨r', hm, hpath, hst, hbr, htg, hnt, hmf, hman, hfull⟩ :=
      upsert_merge_policy [c1ManualRow] c1Incoming "t" (by decide)
        c1ManualRow (by simp) rfl
    have hspec := hman rfl
    have hauth := hspec.2.2.2.2.2.1 (by decide)
    refine ⟨r', hm, ?_, ?_, hmf⟩
    · rw [hauth]; rfl
    · rw [hspec.1]; rfl
  · obtain ⟨r', hm, hpath, hst, hbr, htg, hnt, hmf, hman, hfull⟩ :=
      upsert_merge_policy [c1ScannedRow] c1Incoming "t" (by decide)
        c1ScannedRow (by simp) rfl
    have hspec := hfull (by decide)
    exact ⟨r', hm, hspec.2.2.1, hmf⟩

end Audiobooks

namespace Audiobooks

/-! ## Missing-detection lemmas -/

/-- Every row of `upsertOne` that carries the upserted path has the
missing flag cleared (merged, untouched-impossible, or inserted). -/
theorem upsertOne_target_cleared (db : List BookRow) (b : ParsedBook)
    (now : String) (r' : BookRow) (hr' : r' ∈ upsertOne db b now)
    (hp : r'.path = b.path) : r'.missing_from_csv = false := by
  cases hfind : db.find? (fun x => x.path == b.path) with
  | some r0 =>
    have hstep : upsertOne db b now =
        (if r0.source = some "manual" then
          db.map (fun x => if x.path = b.path then selectiveMergeManual x b now else x)
        else
          db.map (fun x => if x.path = b.path then fullMergeCsv x b now else x)) := by
      unfold upsertOne
      rw [hfind]
    rw [hstep] at hr'
    by_cases hsrc : r0.source = some "manual" <;>
      [rw [if_pos hsrc] at hr'; rw [if_neg hsrc] at hr'] <;>
    · obtain ⟨x, hx, hxe⟩ := List.mem_map.mp hr'
      by_cases hxp : x.path = b.path
      · rw [if_pos hxp] at hxe
        rw [← hxe]
        rfl
      · rw [if_neg hxp] at hxe
        exact absurd (hxe ▸ hp) hxp
  | none =>
    have hstep : upsertOne db b now = db ++ [insertCsvRow b now] := by
      unfold upsertOne
      rw [hfind]
    rw [hstep] at hr'
    rcases List.mem_append.mp hr' with hin | hins
    · have := List.find?_eq_none.mp hfind r' hin
      simp [hp] at this
    · have : r' = insertCsvRow b now := List.mem_singleton.mp hins
      rw [this]
      rfl

/-- A row of `upsertOne` whose path is not the upserted one was already
in the table, unchanged. -/
theorem upsertOne_other_unchanged (db : List BookRow) (b : ParsedBook)
    (now : String) (r' : BookRow) (hr' : r' ∈ upsertOne db b now)
    (hp : r'.path ≠ b.path) : r' ∈ db := by
  cases hfind : db.find? (fun x => x.path == b.path) with
  | some r0 =>
    have hstep : upsertOne db b now =
        (if r0.source = some "manual" then
          db.map (fun x => if x.path = b.path then selectiveMergeManual x b now else x)
        else
          db.map (fun x => if x.path = b.path then fullMergeCsv x b now else x)) := by
      unfold upsertOne
      rw [hfind]
    rw [hstep] at hr'
    by_cases hsrc : r0.source = some "manual" <;>
      [rw [if_pos hsrc] at hr'; rw [if_neg hsrc] at hr'] <;>
    · obtain ⟨x, hx, hxe⟩ := List.mem_map.mp hr'
      by_cases hxp : x.path = b.path
      · rw [if_pos hxp] at hxe
        refine absurd ?_ hp
        rw [← hxe]
        exact hxp
      · rw [if_neg hxp] at hxe
        rw [← hxe]
        exact hx
  | none =>
    have hstep : upsertOne db b now = db ++ [insertCsvRow b now] := by
      unfold upsertOne
      rw [hfind]
    rw [hstep] at hr'
    rcases List.mem_append.mp hr' with hin | hins
    · exact hin
    · have : r' = insertCsvRow b now := List.mem_singleton.mp hins
      rw [this] at hp
      exact absurd rfl hp

/-- Every path present in the table survives `upsertOne`. -/
theorem upsertOne_path_kept (db : List BookRow) (b : ParsedBook)
    (now : String) (r0 : BookRow) (hr0 : r0 ∈ db) :
    ∃ r' ∈ upsertOne db b now, r'.path = r0.path := by
  cases hfind : db.find? (fun x => x.path == b.path) with
  | some rf =>
    have hstep : upsertOne db b now =
        (if rf.source = some "manual" then
          db.map (fun x => if x.path = b.path then selectiveMergeManual x b now else x)
        else
          db.map (fun x => if x.path = b.path then fullMergeCsv x b now else x)) := by
      unfold upsertOne
      rw [hfind]
    rw [hstep]
    by_cases hsrc : rf.source = some "manual" <;>
      [rw [if_pos hsrc]; rw [if_neg hsrc]] <;>
    · by_cases hp : r0.path = b.path
      · refine ⟨_, List.mem_map.mpr ⟨r0, hr0, rfl⟩, ?_⟩
        rw [if_pos hp]
        rfl
      · refine ⟨_, List.mem_map.mpr ⟨r0, hr0, rfl⟩, ?_⟩
        rw [if_neg hp]
  | none =>
    have hstep : upsertOne db b now = db ++ [insertCsvRow b now] := by
      unfold upsertOne
      rw [hfind]
    rw [hstep]
    exact ⟨r0, List.mem_append.mpr (Or.inl hr0), rfl⟩

/-- After the whole upsert loop: a row whose path the batch does not
mention is an unchanged row of the input table, and a row whose path the
batch mentions has the missing flag cleared. -/
theorem upsertBooks_flags (books : List ParsedBook) (db : List BookRow)
    (now : String) (r' : BookRow) (hr' : r' ∈ upsertBooks books db now) :
    (r'.path ∉ books.map (·.path) → r' ∈ db) ∧
    (r'.path ∈ books.map (·.path) → r'.missing_from_csv = false) := by
  induction books generalizing db with
  | nil => exact ⟨fun _ => hr', fun h => absurd h (List.not_mem_nil _)⟩
  | cons b rest ih =>
    have hr'' : r' ∈ upsertBooks rest (upsertOne db b now) now := hr'
    obtain ⟨h1, h2⟩ := ih (upsertOne db b now) hr''
    constructor
    · intro hno
      rw [List.map_cons, List.mem_cons] at hno
      push_neg at hno
      exact upsertOne_other_unchanged db b now r' (h1 hno.2) hno.1
    · intro hyes
      rw [List.map_cons, List.mem_cons] at hyes
      by_cases hrest : r'.path ∈ rest.map (·.path)
      · exact h2 hrest
      · rcases hyes with hb | hr
        · exact upsertOne_target_cleared db b now r' (h1 hrest) hb
        · exact absurd hr hrest

/-- Every path of the input table survives the whole upsert loop. -/
theorem upsertBooks_path_kept (books : List ParsedBook) (db : List BookRow)
    (now : String) (r0 : BookRow) (hr0 : r0 ∈ db) :
    ∃ r' ∈ upsertBooks books db now, r'.path = r0.path := by
  induction books generalizing db r0 with
  | nil => exact ⟨r0, hr0, rfl⟩
  | cons b rest ih =>
    obtain ⟨r1, hr1, hp1⟩ := upsertOne_path_kept db b now r0 hr0
    obtain ⟨r', hr', hp'⟩ := ih (upsertOne db b now) r1 hr1
    exact ⟨r', hr', hp'.trans hp1⟩

/-- `markMissingBooks` is the pointwise flagging of the listed paths. -/
theorem markMissingBooks_eq_map (ps : List String) (db : List BookRow)
    (now : String) :
    markMissingBooks ps db now =
      db.map (fun r => if r.path ∈ ps then markRowMissing r now else r) := by
  induction ps generalizing db with
  | nil => simp [markMissingBooks]
  | cons p ps ih =>
    have hstep : markMissingBooks (p :: ps) db now =
        markMissingBooks ps
          (db.map (fun r => if r.path = p then markRowMissing r now else r))
          now := rfl
    rw [hstep, ih, List.map_map]
    refine List.map_congr_left ?_
    intro r _
    simp only [Function.comp_apply]
    by_cases hp : r.path = p
    · rw [if_pos hp]
      have hpm : (markRowMissing r now).path = r.path := rfl
      by_cases hps : r.path ∈ ps
      · rw [if_pos (by rw [hpm]; exact hps), if_pos (by simp [hp, hps])]
        rfl
      · rw [if_neg (by rw [hpm]; exact hps), if_pos (by simp [hp])]
    · rw [if_neg hp]
      by_cases hps : r.path ∈ ps
      · rw [if_pos hps, if_pos (by simp [hps])]
      · rw [if_neg hps, if_neg (by simp [hp, hps])]

end Audiobooks

namespace Audiobooks

/-! ## Theorems for claim C6 -/

/-- C6: after a full CSV re-ingestion, a catalog row is flagged
`missing_from_csv` exactly when its path is absent from the incoming
set, and no row is deleted (every pre-existing path is still present). -/
theorem missing_detection (db : List BookRow) (books : List ParsedBook)
    (now : String) :
    (∀ r' ∈ csvImportCatalog db books now,
      (r'.missing_from_csv = true ↔ r'.path ∉ books.map (·.path))) ∧
    (∀ r0 ∈ db, ∃ r' ∈ csvImportCatalog db books now, r'.path = r0.path) := by
  constructor
  · intro r' hr'
    unfold csvImportCatalog at hr'
    rw [markMissingBooks_eq_map] at hr'
    obtain ⟨r1, hr1, hre⟩ := List.mem_map.mp hr'
    have hpaths : r1.path ∈ (db.map (·.path)).filter
        (fun p => !((books.map (·.path)).contains p)) ↔
        (r1.path ∈ db.map (·.path) ∧ r1.path ∉ books.map (·.path)) := by
      rw [List.mem_filter]
      simp [List.contains]
    by_cases hmiss : r1.path ∈ (db.map (·.path)).filter
        (fun p => !((books.map (·.path)).contains p))
    · rw [if_pos hmiss] at hre
      rw [← hre]
      have hout := (hpaths.mp hmiss).2
      simp [markRowMissing, hout]
    · rw [if_neg hmiss] at hre
      rw [← hre]
      obtain ⟨hu1, hu2⟩ := upsertBooks_flags books db now r1 hr1
      by_cases hin : r1.path ∈ books.map (·.path)
      · simp [hu2 hin, hin]
      · have hmem : r1 ∈ db := hu1 hin
        have : r1.path ∈ (db.map (·.path)).filter
            (fun p => !((books.map (·.path)).contains p)) :=
          hpaths.mpr ⟨List.mem_map.mpr ⟨r1, hmem, rfl⟩, hin⟩
        exact absurd this hmiss
  · intro r0 hr0
    obtain ⟨r1, hr1, hp1⟩ := upsertBooks_path_kept books db now r0 hr0
    unfold csvImportCatalog
    rw [markMissingBooks_eq_map]
    by_cases hm : r1.path ∈ (db.map (·.path)).filter
        (fun p => !((books.map (·.path)).contains p))
    · refine ⟨markRowMissing r1 now, List.mem_map.mpr ⟨r1, hr1, by rw [if_pos hm]⟩, hp1⟩
    · exact ⟨r1, List.mem_map.mpr ⟨r1, hr1, by rw [if_neg hm]⟩, hp1⟩

/-! ## Aggregation lemmas (claim C7) -/

theorem foldl_add_ratings (l : List BookSummaryWithNarrators) (init : ℚ) :
    l.foldl (fun s b => s + b.book_rating.getD 0) init =
      init + (l.map (fun b => b.book_rating.getD 0)).sum := by
  induction l generalizing init with
  | nil => simp
  | cons b bs ih =>
    simp only [List.foldl_cons, List.map_cons, List.sum_cons, ih]
    ring

theorem ratings_filter_map (books : List BookSummaryWithNarrators) :
    (books.filter (fun b => decide (b.book_rating ≠ none))).map
        (fun b => b.book_rating.getD 0) =
      books.filterMap (·.book_rating) := by
  induction books with
  | nil => rfl
  | cons b bs ih =>
    simp only [decide_not] at ih ⊢
    cases hb : b.book_rating with
    | none => simp [List.filter_cons, List.filterMap_cons, hb, ih]
    | some q => simp [List.filter_cons, List.filterMap_cons, hb, ih]

theorem ratings_filter_length (books : List BookSummaryWithNarrators) :
    (books.filter (fun b => decide (b.book_rating ≠ none))).length =
      (books.filterMap (·.book_rating)).length := by
  rw [← ratings_filter_map books, List.length_map]

/-! ## URI codec lemmas -/

theorem hexVal_hexDigitChar : ∀ x : Nat, x < 16 → hexVal? (hexDigitChar x) = some x := by
  decide

theorem char_toNat_valid (c : Char) :
    c.toNat < 0xd800 ∨ (0xdfff < c.toNat ∧ c.toNat < 0x110000) := by
  rcases c.valid with h | ⟨h1, h2⟩
  · left
    exact h
  · right
    exact ⟨h1, h2⟩

theorem pctByte?_pct (b : Nat) (hb : b < 256) (r : List Char) :
    pctByte? (pctBytes b ++ r) = some (b, r) := by
  show pctByte? ('%' :: hexDigitChar (b / 16) :: hexDigitChar (b % 16) :: r) = some (b, r)
  rw [pctByte?]
  rw [hexVal_hexDigitChar _ (by omega), hexVal_hexDigitChar _ (by omega)]
  dsimp only
  have : 16 * (b / 16) + b % 16 = b := by omega
  rw [this]

theorem decodeURILoop_cons_ne (fuel : Nat) (c : Char) (hc : c ≠ '%') (rest : List Char) :
    decodeURILoop (fuel + 1) (c :: rest) = (decodeURILoop fuel rest).map (c :: ·) := by
  rw [decodeURILoop]
  rw [if_neg hc]

theorem decodeURILoop_one (fuel : Nat) (n : Nat) (h : n < 0x80) (rest : List Char) :
    decodeURILoop (fuel + 1) (pctBytes n ++ rest) =
      (decodeURILoop fuel rest).map (Char.ofNat n :: ·) := by
  show decodeURILoop (fuel + 1)
      ('%' :: hexDigitChar (n / 16) :: hexDigitChar (n % 16) :: rest) = _
  rw [decodeURILoop]
  rw [if_pos rfl]
  have hp : pctByte? ('%' :: hexDigitChar (n / 16) :: hexDigitChar (n % 16) :: rest) =
      some (n, rest) := pctByte?_pct n (by omega) rest
  rw [hp]
  dsimp only
  rw [if_pos h]

theorem decodeURILoop_two (fuel n : Nat) (hlo : 0x80 ≤ n) (hhi : n < 0x800)
    (rest : List Char) :
    decodeURILoop (fuel + 1)
        (pctBytes (0xC0 + n / 0x40) ++ (pctBytes (0x80 + n % 0x40) ++ rest)) =
      (decodeURILoop fuel rest).map (Char.ofNat n :: ·) := by
  show decodeURILoop (fuel + 1)
      ('%' :: hexDigitChar ((0xC0 + n / 0x40) / 16) ::
        hexDigitChar ((0xC0 + n / 0x40) % 16) ::
        (pctBytes (0x80 + n % 0x40) ++ rest)) = _
  rw [decodeURILoop]
  rw [if_pos rfl]
  have hp0 : pctByte? ('%' :: hexDigitChar ((0xC0 + n / 0x40) / 16) ::
      hexDigitChar ((0xC0 + n / 0x40) % 16) ::
      (pctBytes (0x80 + n % 0x40) ++ rest)) =
      some (0xC0 + n / 0x40, pctBytes (0x80 + n % 0x40) ++ rest) :=
    pctByte?_pct _ (by omega) _
  rw [hp0]
  dsimp only
  rw [if_neg (by omega), if_neg (by omega), if_pos (by omega)]
  have hp1 : pctByte? (pctBytes (0x80 + n % 0x40) ++ rest) =
      some (0x80 + n % 0x40, rest) := pctByte?_pct _ (by omega) _
  rw [hp1]
  dsimp only
  rw [if_pos (by simp only [Bool.and_eq_true, decide_eq_true_eq]; omega)]
  have : (0xC0 + n / 0x40 - 0xC0) * 0x40 + (0x80 + n % 0x40 - 0x80) = n := by omega
  rw [this]

theorem decodeURILoop_three (fuel n : Nat) (hlo : 0x800 ≤ n) (hhi : n < 0x10000)
    (hsur : ¬(0xD800 ≤ n ∧ n < 0xE000)) (rest : List Char) :
    decodeURILoop (fuel + 1)
        (pctBytes (0xE0 + n / 0x1000) ++ (pctBytes (0x80 + (n / 0x40) % 0x40) ++
          (pctBytes (0x80 + n % 0x40) ++ rest))) =
      (decodeURILoop fuel rest).map (Char.ofNat n :: ·) := by
  show decodeURILoop (fuel + 1)
      ('%' :: hexDigitChar ((0xE0 + n / 0x1000) / 16) ::
        hexDigitChar ((0xE0 + n / 0x1000) % 16) ::
        (pctBytes (0x80 + (n / 0x40) % 0x40) ++ (pctBytes (0x80 + n % 0x40) ++ rest))) = _
  rw [decodeURILoop]
  rw [if_pos rfl]
  have hp0 : pctByte? ('%' :: hexDigitChar ((0xE0 + n / 0x1000) / 16) ::
      hexDigitChar ((0xE0 + n / 0x1000) % 16) ::
      (pctBytes (0x80 + (n / 0x40) % 0x40) ++ (pctBytes (0x80 + n % 0x40) ++ rest))) =
      some (0xE0 + n / 0x1000,
        pctBytes (0x80 + (n / 0x40) % 0x40) ++ (pctBytes (0x80 + n % 0x40) ++ rest)) :=
    pctByte?_pct _ (by omega) _
  rw [hp0]
  dsimp only
  rw [if_neg (by omega), if_neg (by omega), if_neg (by omega), if_pos (by omega)]
  have hp1 : pctByte? (pctBytes (0x80 + (n / 0x40) % 0x40) ++
      (pctBytes (0x80 + n % 0x40) ++ rest)) =
      some (0x80 + (n / 0x40) % 0x40, pctBytes (0x80 + n % 0x40) ++ rest) :=
    pctByte?_pct _ (by omega) _
  rw [hp1]
  dsimp only
  have hp2 : pctByte? (pctBytes (0x80 + n % 0x40) ++ rest) =
      some (0x80 + n % 0x40, rest) := pctByte?_pct _ (by omega) _
  rw [hp2]
  dsimp only
  rw [if_pos (by simp only [Bool.and_eq_true, decide_eq_true_eq]; omega)]
  have hrec : (0xE0 + n / 0x1000 - 0xE0) * 0x1000 +
      (0x80 + (n / 0x40) % 0x40 - 0x80) * 0x40 + (0x80 + n % 0x40 - 0x80) = n := by
    omega
  rw [hrec]
  rw [if_pos (by
    simp only [Bool.and_eq_true, Bool.not_eq_true', Bool.and_eq_false_iff,
      decide_eq_true_eq, decide_eq_false_iff_not]
    omega)]

theorem decodeURILoop_four (fuel n : Nat) (hlo : 0x10000 ≤ n) (hhi : n < 0x110000)
    (rest : List Char) :
    decodeURILoop (fuel + 1)
        (pctBytes (0xF0 + n / 0x40000) ++ (pctBytes (0x80 + (n / 0x1000) % 0x40) ++
          (pctBytes (0x80 + (n / 0x40) % 0x40) ++ (pctBytes (0x80 + n % 0x40) ++ rest)))) =
      (decodeURILoop fuel rest).map (Char.ofNat n :: ·) := by
  show decodeURILoop (fuel + 1)
      ('%' :: hexDigitChar ((0xF0 + n / 0x40000) / 16) ::
        hexDigitChar ((0xF0 + n / 0x40000) % 16) ::
        (pctBytes (0x80 + (n / 0x1000) % 0x40) ++
          (pctBytes (0x80 + (n / 0x40) % 0x40) ++ (pctBytes (0x80 + n % 0x40) ++ rest)))) = _
  rw [decodeURILoop]
  rw [if_pos rfl]
  have hp0 : pctByte? ('%' :: hexDigitChar ((0xF0 + n / 0x40000) / 16) ::
      hexDigitChar ((0xF0 + n / 0x40000) % 16) ::
      (pctBytes (0x80 + (n / 0x1000) % 0x40) ++
        (pctBytes (0x80 + (n / 0x40) % 0x40) ++ (pctBytes (0x80 + n % 0x40) ++ rest)))) =
      some (0xF0 + n / 0x40000,
        pctBytes (0x80 + (n / 0x1000) % 0x40) ++
          (pctBytes (0x80 + (n / 0x40) % 0x40) ++ (pctBytes (0x80 + n % 0x40) ++ rest))) :=
    pctByte?_pct _ (by omega) _
  rw [hp0]
  dsimp only
  rw [if_neg (by omega), if_neg (by omega), if_neg (by omega), if_neg (by omega),
    if_pos (by omega)]
  have hp1 : pctByte? (pctBytes (0x80 + (n / 0x1000) % 0x40) ++
      (pctBytes (0x80 + (n / 0x40) % 0x40) ++ (pctBytes (0x80 + n % 0x40) ++ rest))) =
      some (0x80 + (n / 0x1000) % 0x40,
        pctBytes (0x80 + (n / 0x40) % 0x40) ++ (pctBytes (0x80 + n % 0x40) ++ rest)) :=
    pctByte?_pct _ (by omega) _
  rw [hp1]
  dsimp only
  have hp2 : pctByte? (pctBytes (0x80 + (n / 0x40) % 0x40) ++
      (pctBytes (0x80 + n % 0x40) ++ rest)) =
      some (0x80 + (n / 0x40) % 0x40, pctBytes (0x80 + n % 0x40) ++ rest) :=
    pctByte?_pct _ (by omega) _
  rw [hp2]
  dsimp only
  have hp3 : pctByte? (pctBytes (0x80 + n % 0x40) ++ rest) =
      some (0x80 + n % 0x40, rest) := pctByte?_pct _ (by omega) _
  rw [hp3]
  dsimp only
  rw [if_pos (by simp only [Bool.and_eq_true, decide_eq_true_eq]; omega)]
  have hrec : (0xF0 + n / 0x40000 - 0xF0) * 0x40000 +
      (0x80 + (n / 0x1000) % 0x40 - 0x80) * 0x1000 +
      (0x80 + (n / 0x40) % 0x40 - 0x80) * 0x40 + (0x80 + n % 0x40 - 0x80) = n := by
    omega
  rw [hrec]
  rw [if_pos (by simp only [Bool.and_eq_true, decide_eq_true_eq]; omega)]

theorem decodeURILoop_encodeChar (fuel : Nat) (c : Char) (rest : List Char) :
    decodeURILoop (fuel + 1) (encodeURIChar c ++ rest) =
      (decodeURILoop fuel rest).map (c :: ·) := by
  by_cases hu : isUnreservedURIChar c
  · have hc : c ≠ '%' := by
      intro h
      rw [h] at hu
      exact absurd hu (by decide)
    rw [show encodeURIChar c = [c] from by simp [encodeURIChar, hu]]
    rw [List.singleton_append]
    exact decodeURILoop_cons_ne fuel c hc rest
  · rw [show encodeURIChar c = (utf8Bytes c).flatMap pctBytes from by
      simp [encodeURIChar, hu]]
    have hvalid := char_toNat_valid c
    by_cases h1 : c.toNat < 0x80
    · rw [show (utf8Bytes c).flatMap pctBytes ++ rest = pctBytes c.toNat ++ rest from by
        simp [utf8Bytes, h1]]
      rw [decodeURILoop_one fuel c.toNat h1 rest, Char.ofNat_toNat]
    · by_cases h2 : c.toNat < 0x800
      · rw [show (utf8Bytes c).flatMap pctBytes ++ rest =
            pctBytes (0xC0 + c.toNat / 0x40) ++
              (pctBytes (0x80 + c.toNat % 0x40) ++ rest) from by
          simp [utf8Bytes, h1, h2, List.append_assoc]]
        rw [decodeURILoop_two fuel c.toNat (by omega) h2 rest, Char.ofNat_toNat]
      · by_cases h3 : c.toNat < 0x10000
        · rw [show (utf8Bytes c).flatMap pctBytes ++ rest =
              pctBytes (0xE0 + c.toNat / 0x1000) ++
                (pctBytes (0x80 + (c.toNat / 0x40) % 0x40) ++
                  (pctBytes (0x80 + c.toNat % 0x40) ++ rest)) from by
            simp [utf8Bytes, h1, h2, h3, List.append_assoc]]
          rw [decodeURILoop_three fuel c.toNat (by omega) h3 (by omega) rest,
            Char.ofNat_toNat]
        · rw [show (utf8Bytes c).flatMap pctBytes ++ rest =
              pctBytes (0xF0 + c.toNat / 0x40000) ++
                (pctBytes (0x80 + (c.toNat / 0x1000) % 0x40) ++
                  (pctBytes (0x80 + (c.toNat / 0x40) % 0x40) ++
                    (pctBytes (0x80 + c.toNat % 0x40) ++ rest))) from by
            simp [utf8Bytes, h1, h2, h3, List.append_assoc]]
          rw [decodeURILoop_four fuel c.toNat (by omega) (by omega) rest,
            Char.ofNat_toNat]

theorem decodeURILoop_encode_append (cs : List Char) (fuel : Nat) (rest : List Char) :
    decodeURILoop (cs.length + fuel) (cs.flatMap encodeURIChar ++ rest) =
      (decodeURILoop fuel rest).map (cs ++ ·) := by
  induction cs generalizing rest with
  | nil =>
    simp
  | cons c cs ih =>
    rw [List.flatMap_cons, List.append_assoc]
    have hlen : (c :: cs).length + fuel = (cs.length + fuel) + 1 := by
      simp [List.length_cons]
      omega
    rw [hlen]
    rw [decodeURILoop_encodeChar (cs.length + fuel) c
      (cs.flatMap encodeURIChar ++ rest)]
    rw [ih rest]
    rw [Option.map_map]
    rfl

theorem decodeURIComponent_encodeURIComponent (s : String) :
    decodeURIComponent (encodeURIComponent s) = s := by
  show (match decodeURILoop (s.data.flatMap encodeURIChar).length
      (s.data.flatMap encodeURIChar) with
    | some cs => String.mk cs
    | none => encodeURIComponent s) = s
  have hfuel : (s.data.flatMap encodeURIChar).length = s.data.length +
      ((s.data.flatMap encodeURIChar).length - s.data.length) := by
    have : s.data.length ≤ (s.data.flatMap encodeURIChar).length := by
      induction s.data with
      | nil => simp
      | cons c cs ih =>
        rw [List.flatMap_cons, List.length_append, List.length_cons]
        have : 1 ≤ (encodeURIChar c).length := by
          by_cases hu : isUnreservedURIChar c
          · simp [encodeURIChar, hu]
          · simp only [encodeURIChar, hu, if_false]
            have : utf8Bytes c ≠ [] := by
              simp only [utf8Bytes]
              split_ifs <;> simp
            cases hb : utf8Bytes c with
            | nil => exact absurd hb this
            | cons x xs => simp [pctBytes]
        omega
    omega
  rw [hfuel]
  have := decodeURILoop_encode_append s.data
    ((s.data.flatMap encodeURIChar).length - s.data.length) []
  rw [List.append_nil] at this
  rw [this]
  show (match (decodeURILoop _ ([] : List Char)).map (s.data ++ ·) with
    | some cs => String.mk cs
    | none => encodeURIComponent s) = s
  rw [show decodeURILoop ((s.data.flatMap encodeURIChar).length - s.data.length)
      ([] : List Char) = some [] from by
    cases h : (s.data.flatMap encodeURIChar).length - s.data.length <;> rfl]
  simp

/-! ## Theorems for claim C7 -/

/-- C7: for a non-empty group, `completionStatus` is `finished` iff
every member is finished, `not_started` iff every member is not started,
and `in_progress` otherwise; `completionPercent` is
`finishedCount / bookCount × 100`; `avgBookRating` is the arithmetic
mean of the non-null ratings and is null exactly when no member has a
rating. -/
theorem series_stats_aggregates (seriesKey seriesName : String)
    (books : List BookSummaryWithNarrators) (isStandalone : Bool)
    (hne : books ≠ []) :
    ((computeStats seriesKey seriesName books isStandalone).completionStatus =
        .finished ↔ ∀ b ∈ books, b.status = .finished) ∧
    ((computeStats seriesKey seriesName books isStandalone).completionStatus =
        .not_started ↔ ∀ b ∈ books, b.status = .not_started) ∧
    ((computeStats seriesKey seriesName books isStandalone).completionStatus =
        .in_progress ↔
      (¬(∀ b ∈ books, b.status = .finished) ∧
        ¬(∀ b ∈ books, b.status = .not_started))) ∧
    ((computeStats seriesKey seriesName books isStandalone).completionPercent =
      ((books.filter (fun b => decide (b.status = .finished))).length : ℚ) /
        (books.length : ℚ) * 100) ∧
    ((computeStats seriesKey seriesName books isStandalone).avgBookRating =
        none ↔ ∀ b ∈ books, b.book_rating = none) ∧
    (∀ q : ℚ,
      (computeStats seriesKey seriesName books isStandalone).avgBookRating =
        some q →
      q = (books.filterMap (·.book_rating)).sum /
        ((books.filterMap (·.book_rating)).length : ℚ)) := by
  have hstatus : (computeStats seriesKey seriesName books isStandalone).completionStatus =
      (if (books.filter (fun b => decide (b.status = .finished))).length =
          books.length then BookStatus.finished
       else if (books.filter (fun b => decide (b.status = .not_started))).length =
          books.length then BookStatus.not_started
       else BookStatus.in_progress) := rfl
  have hpercent : (computeStats seriesKey seriesName books isStandalone).completionPercent =
      (if books.length > 0 then
        ((books.filter (fun b => decide (b.status = .finished))).length : ℚ) /
          (books.length : ℚ) * 100
      else 0) := rfl
  have havg : (computeStats seriesKey seriesName books isStandalone).avgBookRating =
      (if (books.filter (fun b => decide (b.book_rating ≠ none))).length > 0 then
        some (((books.filter (fun b => decide (b.book_rating ≠ none))).foldl
            (fun sum b => sum + b.book_rating.getD 0) 0) /
          ((books.filter (fun b => decide (b.book_rating ≠ none))).length : ℚ))
      else none) := rfl
  have h1iff : ((books.filter (fun b => decide (b.status = .finished))).length =
      books.length) ↔ ∀ b ∈ books, b.status = .finished := by
    rw [List.filter_length_eq_length]
    simp
  have h2iff : ((books.filter (fun b => decide (b.status = .not_started))).length =
      books.length) ↔ ∀ b ∈ books, b.status = .not_started := by
    rw [List.filter_length_eq_length]
    simp
  refine ⟨?_, ?_, ?_, ?_, ?_, ?_⟩
  · rw [hstatus]
    constructor
    · intro hs
      by_cases h1 : (books.filter (fun b => decide (b.status = .finished))).length =
          books.length
      · exact h1iff.mp h1
      · rw [if_neg h1] at hs
        by_cases h2 : (books.filter (fun b => decide (b.status = .not_started))).length =
            books.length
        · rw [if_pos h2] at hs
          exact absurd hs (by decide)
        · rw [if_neg h2] at hs
          exact absurd hs (by decide)
    · intro hall
      rw [if_pos (h1iff.mpr hall)]
  · rw [hstatus]
    constructor
    · intro hs
      by_cases h1 : (books.filter (fun b => decide (b.status = .finished))).length =
          books.length
      · rw [if_pos h1] at hs
        exact absurd hs (by decide)
      · rw [if_neg h1] at hs
        by_cases h2 : (books.filter (fun b => decide (b.status = .not_started))).length =
            books.length
        · exact h2iff.mp h2
        · rw [if_neg h2] at hs
          exact absurd hs (by decide)
    · intro hall
      have h2 := h2iff.mpr hall
      have h1 : ¬((books.filter (fun b => decide (b.status = .finished))).length =
          books.length) := by
        intro h1
        obtain ⟨b0, hb0⟩ := List.exists_mem_of_ne_nil books hne
        have hf := h1iff.mp h1 b0 hb0
        have hn := hall b0 hb0
        rw [hf] at hn
        cases hn
      rw [if_neg h1, if_pos h2]
  · rw [hstatus]
    constructor
    · intro hs
      by_cases h1 : (books.filter (fun b => decide (b.status = .finished))).length =
          books.length
      · rw [if_pos h1] at hs
        exact absurd hs (by decide)
      · rw [if_neg h1] at hs
        by_cases h2 : (books.filter (fun b => decide (b.status = .not_started))).length =
            books.length
        · rw [if_pos h2] at hs
          exact absurd hs (by decide)
        · exact ⟨fun hall => h1 (h1iff.mpr hall), fun hall => h2 (h2iff.mpr hall)⟩
    · rintro ⟨hn1, hn2⟩
      rw [if_neg (fun h => hn1 (h1iff.mp h)),
        if_neg (fun h => hn2 (h2iff.mp h))]
  · rw [hpercent, if_pos (List.length_pos.mpr hne)]
  · rw [havg]
    constructor
    · intro h
      by_cases hc : 0 < (books.filter (fun b => decide (b.book_rating ≠ none))).length
      · rw [if_pos hc] at h
        cases h
      · intro b hb
        have hl : (books.filter (fun b => decide (b.book_rating ≠ none))).length = 0 :=
          Nat.eq_zero_of_not_pos hc
        have hnil := List.length_eq_zero.mp hl
        have := List.filter_eq_nil_iff.mp hnil b hb
        simpa using this
    · intro hall
      rw [if_neg]
      intro hc
      obtain ⟨b, hb⟩ := List.exists_mem_of_length_pos hc
      have hbmem := List.mem_filter.mp hb
      have := hall b hbmem.1
      simp [this] at hbmem
  · intro q hq
    rw [havg] at hq
    by_cases hc : 0 < (books.filter (fun b => decide (b.book_rating ≠ none))).length
    · rw [if_pos hc] at hq
      have heq := Option.some.inj hq
      rw [← heq, foldl_add_ratings, zero_add, ratings_filter_map,
        ratings_filter_length]
    · rw [if_neg hc] at hq
      cases hq

/-- Witness for C7 at a concrete one-member group: the group is
finished, 100% complete, with average rating 4. -/
theorem series_stats_aggregates_witness :
    (computeStats "k" "n" [c7book] false).completionStatus = .finished ∧
    (computeStats "k" "n" [c7book] false).completionPercent = 100 ∧
    (computeStats "k" "n" [c7book] false).avgBookRating ≠ none := by
  obtain ⟨h1, _, _, h4, h5, _⟩ :=
    series_stats_aggregates "k" "n" [c7book] false (by simp)
  refine ⟨h1.mpr ?_, ?_, ?_⟩
  · intro b hb
    rw [List.mem_singleton.mp hb]
    rfl
  · rw [h4]
    norm_num [c7book, emptyBook]
  · intro hnone
    have := h5.mp hnone c7book (by simp)
    simp [c7book, emptyBook] at this

/-- Witness for C6: with catalog {A, B, C} and incoming {A, C}, the row
at path B is flagged missing, the rows at A and C are not. -/
theorem missing_detection_witness :
    (∃ r' ∈ csvImportCatalog [c6rowA, c6rowB, c6rowC] [c6bookA, c6bookC] "t",
      r'.path = "B" ∧ r'.missing_from_csv = true) ∧
    (∃ r' ∈ csvImportCatalog [c6rowA, c6rowB, c6rowC] [c6bookA, c6bookC] "t",
      r'.path = "A" ∧ r'.missing_from_csv = false) := by
  obtain ⟨hiff, hkeep⟩ :=
    missing_detection [c6rowA, c6rowB, c6rowC] [c6bookA, c6bookC] "t"
  constructor
  · obtain ⟨r', hr', hp⟩ := hkeep c6rowB (by simp)
    have hB : r'.path = "B" := hp
    refine ⟨r', hr', hB, (hiff r' hr').mpr ?_⟩
    rw [hB]
    decide
  · obtain ⟨r', hr', hp⟩ := hkeep c6rowA (by simp)
    have hA : r'.path = "A" := hp
    refine ⟨r', hr', hA, ?_⟩
    by_contra hne
    have : r'.missing_from_csv = true := by
      cases hmv : r'.missing_from_csv
      · exact absurd hmv hne
      · rfl
    have := (hiff r' hr').mp this
    rw [hA] at this
    exact this (by decide)

/-! ## Trim, grouping and encoding lemmas (claim C10) -/

/-- The front of a front-then-back trimmed list starts with a
non-space character, so a second front trim is the identity. -/
theorem dropWhile_rdropWhile_dropWhile (p : Char → Bool) (l : List Char) :
    (List.rdropWhile p (l.dropWhile p)).dropWhile p
      = List.rdropWhile p (l.dropWhile p) := by
  cases htc : List.rdropWhile p (l.dropWhile p) with
  | nil => simp
  | cons c ts =>
    obtain ⟨u, hu⟩ := List.rdropWhile_prefix p (l.dropWhile p)
    have h0 := List.head?_dropWhile_not p l
    rw [← hu, htc] at h0
    simp only [List.cons_append, List.head?_cons] at h0
    rw [List.dropWhile_cons, h0]
    simp

/-- `jsTrim` through `List.rdropWhile`. -/
theorem jsTrim_eq (s : String) :
    jsTrim s = ⟨List.rdropWhile jsIsSpace (s.data.dropWhile jsIsSpace)⟩ := rfl

/-- JS `trim` is idempotent. -/
theorem jsTrim_idem (s : String) : jsTrim (jsTrim s) = jsTrim s := by
  rw [jsTrim_eq s, jsTrim_eq]
  congr 1
  show List.rdropWhile jsIsSpace
      ((List.rdropWhile jsIsSpace (s.data.dropWhile jsIsSpace)).dropWhile jsIsSpace)
    = List.rdropWhile jsIsSpace (s.data.dropWhile jsIsSpace)
  rw [dropWhile_rdropWhile_dropWhile, List.rdropWhile_idempotent]

theorem addToGroup_fst (gs : List (String × List BookSummaryWithNarrators))
    (k : String) (bk : BookSummaryWithNarrators) :
    (addToGroup gs k bk).map Prod.fst =
      (if k ∈ gs.map Prod.fst then gs.map Prod.fst
       else gs.map Prod.fst ++ [k]) := by
  induction gs with
  | nil => simp [addToGroup]
  | cons kv rest ih =>
    by_cases hk : kv.1 = k
    · simp [addToGroup, hk]
    · have hk2 : ¬ (k = kv.1) := fun h => hk h.symm
      by_cases hmem : k ∈ rest.map Prod.fst
      · simp [addToGroup, hk, ih, hmem, hk2]
      · simp [addToGroup, hk, ih, hmem, hk2]

theorem addToGroup_spec (gs : List (String × List BookSummaryWithNarrators))
    (k : String) (bk : BookSummaryWithNarrators) (seen : List BookSummaryWithNarrators)
    (hnd : (gs.map Prod.fst).Nodup)
    (hbk : safeString bk.series = k)
    (hkeys : ∀ kv ∈ gs,
      kv.2 = seen.filter (fun r => safeString r.series == kv.1))
    (hkmiss : k ∉ gs.map Prod.fst →
      seen.filter (fun r => safeString r.series == k) = []) :
    ((addToGroup gs k bk).map Prod.fst).Nodup ∧
    (∀ kv ∈ addToGroup gs k bk,
      kv.2 = (seen ++ [bk]).filter (fun r => safeString r.series == kv.1)) := by
  induction gs with
  | nil =>
    refine ⟨by simp [addToGroup], ?_⟩
    intro kv hkv
    simp only [addToGroup, List.mem_singleton] at hkv
    rw [hkv]
    rw [List.filter_append, hkmiss (by simp)]
    simp [hbk]
  | cons kv0 rest ih =>
    obtain ⟨k0, bs0⟩ := kv0
    have hnd' : k0 ∉ List.map Prod.fst rest ∧ (List.map Prod.fst rest).Nodup := by
      rw [List.map_cons] at hnd
      exact List.nodup_cons.mp hnd
    by_cases h1 : k0 = k
    · have hstep : addToGroup ((k0, bs0) :: rest) k bk = (k0, bs0 ++ [bk]) :: rest := by
        simp [addToGroup, h1]
      rw [hstep]
      constructor
      · simpa using hnd
      · intro kv hkv
        rcases List.mem_cons.mp hkv with he | hr
        · rw [he]
          dsimp only
          have hm := hkeys (k0, bs0) (List.mem_cons_self _ _)
          simp only at hm
          simp only [List.filter_append]
          rw [← hm]
          simp [hbk, h1]
        · have hm := hkeys kv (List.mem_cons.mpr (Or.inr hr))
          rw [List.filter_append]
          have hne : kv.1 ≠ k := by
            intro he
            have : kv.1 ∈ rest.map Prod.fst := List.mem_map.mpr ⟨kv, hr, rfl⟩
            rw [he, ← h1] at this
            exact hnd'.1 this
          rw [hm]
          have hne2 : ¬ (k = kv.1) := fun h => hne h.symm
          have : List.filter (fun r => safeString r.series == kv.1) [bk] = [] := by
            simp [hbk, hne2]
          rw [this, List.append_nil]
    · have hstep : addToGroup ((k0, bs0) :: rest) k bk = (k0, bs0) :: addToGroup rest k bk := by
        simp [addToGroup, h1]
      rw [hstep]
      have hkm' : k ∉ rest.map Prod.fst →
          seen.filter (fun r => safeString r.series == k) = [] := by
        intro hk2
        refine hkmiss ?_
        simp only [List.map_cons, List.mem_cons]
        rintro (he | hm)
        · exact h1 he.symm
        · exact hk2 hm
      obtain ⟨ihnd, ihspec⟩ := ih hnd'.2
        (fun kv hkv => hkeys kv (List.mem_cons.mpr (Or.inr hkv))) hkm'
      constructor
      · rw [List.map_cons]
        refine List.nodup_cons.mpr ⟨?_, ihnd⟩
        rw [addToGroup_fst]
        by_cases hmem : k ∈ rest.map Prod.fst
        · rw [if_pos hmem]
          exact hnd'.1
        · rw [if_neg hmem]
          simp only [List.mem_append, List.mem_singleton]
          rintro (hm | he)
          · exact hnd'.1 hm
          · exact h1 he
      · intro kv hkv
        rcases List.mem_cons.mp hkv with he | hr
        · rw [he]
          dsimp only
          have hm := hkeys (k0, bs0) (List.mem_cons_self _ _)
          simp only at hm
          rw [List.filter_append, ← hm]
          have hne2 : ¬ (k = k0) := fun h => h1 h.symm
          have : List.filter (fun r => safeString r.series == k0) [bk] = [] := by
            simp [hbk, hne2]
          rw [this, List.append_nil]
        · exact ihspec kv hr

theorem groupFold_spec (books : List BookSummaryWithNarrators) :
    ∀ (acc : List (String × List BookSummaryWithNarrators) ×
        List BookSummaryWithNarrators) (seen : List BookSummaryWithNarrators),
    (acc.1.map Prod.fst).Nodup →
    (∀ kv ∈ acc.1, jsTrim kv.1 = kv.1 ∧ kv.1 ≠ "" ∧
      kv.2 = seen.filter (fun r => safeString r.series == kv.1)) →
    (∀ r ∈ seen, safeString r.series ≠ "" →
      safeString r.series ∈ acc.1.map Prod.fst) →
    (((books.foldl groupStep acc).1.map Prod.fst).Nodup ∧
     ∀ kv ∈ (books.foldl groupStep acc).1,
       jsTrim kv.1 = kv.1 ∧ kv.1 ≠ "" ∧
       kv.2 = (seen ++ books).filter (fun r => safeString r.series == kv.1)) := by
  induction books with
  | nil =>
    intro acc seen hnd hkeys _
    refine ⟨hnd, ?_⟩
    intro kv hkv
    simpa using hkeys kv hkv
  | cons bk rest ih =>
    intro acc seen hnd hkeys hcomp
    rw [List.foldl_cons]
    have hassoc : seen ++ bk :: rest = (seen ++ [bk]) ++ rest := by simp
    rw [hassoc]
    by_cases hk0 : safeString bk.series = ""
    · have hstep : groupStep acc bk = (acc.1, acc.2 ++ [bk]) := by
        simp [groupStep, hk0]
      rw [hstep]
      refine ih (acc.1, acc.2 ++ [bk]) (seen ++ [bk]) hnd ?_ ?_
      · intro kv hkv
        obtain ⟨ht, hne, hm⟩ := hkeys kv hkv
        refine ⟨ht, hne, ?_⟩
        rw [List.filter_append, hm]
        have hne2 : ¬ ("" = kv.1) := fun h => hne h.symm
        have : List.filter (fun r => safeString r.series == kv.1) [bk] = [] := by
          simp [hk0, hne2]
        rw [this, List.append_nil]
      · intro r hr hne
        rcases List.mem_append.mp hr with hs | hb
        · exact hcomp r hs hne
        · rw [List.mem_singleton.mp hb] at hne ⊢
          exact absurd hk0 hne
    · have hstep : groupStep acc bk = (addToGroup acc.1 (safeString bk.series) bk, acc.2) := by
        simp [groupStep, hk0]
      rw [hstep]
      have hkm : safeString bk.series ∉ acc.1.map Prod.fst →
          seen.filter (fun r => safeString r.series == safeString bk.series) = [] := by
        intro hnm
        refine List.filter_eq_nil_iff.mpr ?_
        intro r hr
        simp only [beq_iff_eq]
        intro he
        exact hnm (by rw [← he]; exact hcomp r hr (by rw [he]; exact hk0))
      obtain ⟨hnd2, hspec2⟩ := addToGroup_spec acc.1 (safeString bk.series) bk seen
        hnd rfl (fun kv hkv => (hkeys kv hkv).2.2) hkm
      refine ih _ (seen ++ [bk]) hnd2 ?_ ?_
      · intro kv hkv
        have hkvmem : kv.1 ∈ (addToGroup acc.1 (safeString bk.series) bk).map Prod.fst :=
          List.mem_map.mpr ⟨kv, hkv, rfl⟩
        rw [addToGroup_fst] at hkvmem
        have htrim : jsTrim (safeString bk.series) = safeString bk.series := by
          cases hsv : bk.series with
          | none =>
            rw [hsv] at hk0
            simp [safeString] at hk0
          | some v =>
            simp only [safeString]
            exact jsTrim_idem v
        refine ⟨?_, ?_, hspec2 kv hkv⟩
        · by_cases hmem : safeString bk.series ∈ acc.1.map Prod.fst
          · rw [if_pos hmem] at hkvmem
            obtain ⟨kv', hkv', he⟩ := List.mem_map.mp hkvmem
            rw [← he]
            exact (hkeys kv' hkv').1
          · rw [if_neg hmem] at hkvmem
            rcases List.mem_append.mp hkvmem with hm | hnew
            · obtain ⟨kv', hkv', he⟩ := List.mem_map.mp hm
              rw [← he]
              exact (hkeys kv' hkv').1
            · rw [List.mem_singleton.mp hnew]
              exact htrim
        · by_cases hmem : safeString bk.series ∈ acc.1.map Prod.fst
          · rw [if_pos hmem] at hkvmem
            obtain ⟨kv', hkv', he⟩ := List.mem_map.mp hkvmem
            rw [← he]
            exact (hkeys kv' hkv').2.1
          · rw [if_neg hmem] at hkvmem
            rcases List.mem_append.mp hkvmem with hm | hnew
            · obtain ⟨kv', hkv', he⟩ := List.mem_map.mp hm
              rw [← he]
              exact (hkeys kv' hkv').2.1
            · rw [List.mem_singleton.mp hnew]
              exact hk0
      · intro r hr hne
        rw [addToGroup_fst]
        have hsub : ∀ x, x ∈ acc.1.map Prod.fst →
            x ∈ (if safeString bk.series ∈ acc.1.map Prod.fst
              then acc.1.map Prod.fst else acc.1.map Prod.fst ++ [safeString bk.series]) := by
          intro x hx
          by_cases hmem : safeString bk.series ∈ acc.1.map Prod.fst
          · rwa [if_pos hmem]
          · rw [if_neg hmem]
            exact List.mem_append.mpr (Or.inl hx)
        rcases List.mem_append.mp hr with hs | hb
        · exact hsub _ (hcomp r hs hne)
        · rw [List.mem_singleton.mp hb]
          by_cases hmem : safeString bk.series ∈ acc.1.map Prod.fst
          · rw [if_pos hmem]
            exact hmem
          · rw [if_neg hmem]
            exact List.mem_append.mpr (Or.inr (by simp))

/-- The grouping loop of `getSeriesStats` has distinct keys, each of
them a non-empty trim-stable string, and each group holds exactly the
books whose trimmed series string is its key, in input order. -/
theorem groupBySeries_spec (books : List BookSummaryWithNarrators) :
    ((groupBySeries books).1.map Prod.fst).Nodup ∧
    ∀ kv ∈ (groupBySeries books).1,
      jsTrim kv.1 = kv.1 ∧ kv.1 ≠ "" ∧
      kv.2 = books.filter (fun r => safeString r.series == kv.1) := by
  have h := groupFold_spec books ([], []) [] (by simp) (by simp) (by simp)
  simpa [groupBySeries] using h

theorem foldl_append_singleton {α β : Type} (f : α → β) (l : List α)
    (init : List β) :
    l.foldl (fun acc kv => acc ++ [f kv]) init = init ++ l.map f := by
  induction l generalizing init with
  | nil => simp
  | cons x xs ih => simp [ih]

theorem encodeURIChar_ne_nil (c : Char) : encodeURIChar c ≠ [] := by
  rw [encodeURIChar]
  split
  · simp
  · simp only [utf8Bytes]
    split_ifs <;> simp [pctBytes]

theorem encodeURIComponent_ne_empty (s : String) (h : s ≠ "") :
    encodeURIComponent s ≠ "" := by
  intro he
  apply h
  cases s with
  | mk d =>
    cases d with
    | nil => rfl
    | cons c rest =>
      exfalso
      have hd : (encodeURIComponent ⟨c :: rest⟩).data = ("" : String).data := by
        rw [he]
      simp only [encodeURIComponent, List.flatMap_cons] at hd
      have : encodeURIChar c ++ rest.flatMap encodeURIChar = [] := hd
      exact encodeURIChar_ne_nil c (List.append_eq_nil.mp this).1

/-! ## Theorems for claim C10 -/

/-- C10 counterexample: a record whose raw series string carries a
leading space.  `getSeriesStats` trims before grouping, so the single
group reported has key and name `"Foo"` and one member, but the
book-level series filter compares the decoded key for strict equality
against the raw `series` field, so filtering with that group's key
returns no record at all. -/
theorem series_filter_round_trip_cex :
    (getSeriesStats [c10bk] none none).map
        (fun s => (s.seriesKey, s.seriesName, s.bookCount)) = [("Foo", "Foo", 1)] ∧
    getBooksFiltered [c10bk] (some { seriesKey := some "Foo" }) none = [] := by
  constructor
  · simp [getSeriesStats, groupBySeries, groupStep, addToGroup, safeString,
      jsTrim, jsIsSpace, jsTruthyOptStr, computeStats, findCoverBook,
      List.mergeSort, List.splitInTwo, List.merge, c10bk, emptyBook,
      encodeURIComponent, encodeURIChar, isUnreservedURIChar, jsToLower]
  · simp [getBooksFiltered, applyBookFilters, decodeURIComponent, decodeURILoop,
      pctByte?, hexVal?, List.mergeSort, c10bk, emptyBook]

/-- C10 amended: over series filters `getSeriesStats` reports every
group under the URI-encoded trimmed series name (or the `standalone`
sentinel), and filtering with the encoded key of a grouped series whose
name is not literally `standalone` returns exactly those group members
whose **raw** series string equals the trimmed key — members whose raw
string needed trimming are dropped by the filter. -/
theorem series_filter_round_trip (books : List BookSummaryWithNarrators) :
    (∀ s ∈ getSeriesStats books none none,
        s.seriesKey = encodeURIComponent s.seriesName ∨
          (s.seriesKey = "standalone" ∧ s.seriesName = "Standalone Books")) ∧
    (∀ kv ∈ (groupBySeries books).1, kv.1 ≠ "standalone" →
      ∀ r : BookSummaryWithNarrators,
        (r ∈ getBooksFiltered books
            (some { seriesKey := some (encodeURIComponent kv.1) }) none ↔
          (r ∈ kv.2 ∧ r.series = some kv.1))) := by
  constructor
  · intro s hs
    simp only [getSeriesStats, Option.bind, jsTruthyOptStr, Option.map,
      List.mem_mergeSort, if_false, Bool.false_eq_true, ite_false] at hs
    rw [foldl_append_singleton
      (fun kv : String × List BookSummaryWithNarrators =>
        computeStats (encodeURIComponent kv.1) kv.1 kv.2 false)] at hs
    by_cases hst : (groupBySeries books).2.length > 0
    · rw [if_pos hst] at hs
      rcases List.mem_append.mp hs with hmain | hstand
      · simp only [List.nil_append, List.mem_map] at hmain
        obtain ⟨kv, _, he⟩ := hmain
        left
        rw [← he]
        simp [computeStats]
      · right
        rw [List.mem_singleton.mp hstand]
        simp [computeStats]
    · rw [if_neg hst] at hs
      simp only [List.nil_append, List.mem_map] at hs
      obtain ⟨kv, _, he⟩ := hs
      left
      rw [← he]
      simp [computeStats]
  · intro kv hkv hne r
    obtain ⟨hnd, hspec⟩ := groupBySeries_spec books
    obtain ⟨htrim, hne0, hmem⟩ := hspec kv hkv
    have henc_ne : encodeURIComponent kv.1 ≠ "" :=
      encodeURIComponent_ne_empty kv.1 hne0
    have henc_ns : encodeURIComponent kv.1 ≠ "standalone" := by
      intro h
      apply hne
      have hrt := decodeURIComponent_encodeURIComponent kv.1
      rw [h] at hrt
      have hds : decodeURIComponent "standalone" = "standalone" := rfl
      rw [hds] at hrt
      exact hrt.symm
    have happ : applyBookFilters books
        (some { seriesKey := some (encodeURIComponent kv.1) }) =
        books.filter (fun b => decide (b.series = some kv.1)) := by
      simp only [applyBookFilters, Option.bind, jsTruthyOptStr]
      rw [if_neg henc_ne, if_neg henc_ns, decodeURIComponent_encodeURIComponent]
      simp
    simp only [getBooksFiltered, List.mem_mergeSort, happ, List.mem_filter,
      decide_eq_true_eq]
    constructor
    · rintro ⟨hrb, hrs⟩
      refine ⟨?_, hrs⟩
      rw [hmem]
      refine List.mem_filter.mpr ⟨hrb, ?_⟩
      simp [safeString, hrs, htrim]
    · rintro ⟨hrkv, hrs⟩
      rw [hmem] at hrkv
      exact ⟨(List.mem_filter.mp hrkv).1, hrs⟩

/-- The round-trip theorem at a concrete input: one record whose series
string `"Foo"` is already trimmed, grouped under key `"Foo"`, and
recovered exactly by the series filter with the encoded key. -/
theorem series_filter_round_trip_witness :
    ("Foo", [c10good]) ∈ (groupBySeries [c10good]).1 ∧
    ("Foo" : String) ≠ "standalone" ∧
    (c10good ∈ getBooksFiltered [c10good]
        (some { seriesKey := some (encodeURIComponent "Foo") }) none ↔
      (c10good ∈ [c10good] ∧ c10good.series = some "Foo")) := by
  have h1 : (groupBySeries [c10good]).1 = [("Foo", [c10good])] := by
    simp [groupBySeries, groupStep, addToGroup, safeString, jsTrim, jsIsSpace,
      c10good, emptyBook]
  refine ⟨by rw [h1]; simp, by decide, ?_⟩
  have := (series_filter_round_trip [c10good]).2 ("Foo", [c10good])
    (by rw [h1]; simp) (by decide) c10good
  simpa using this

/-! ## Theorems for claim C3 -/

/-- C3 counterexample: a folder with exactly one `.m4b` (plus one
`.mp3` of duration 100) whose `.m4b` duration is unreadable.  The claim
promises the summed fallback (100); the candidate's duration is null —
the single-`.m4b` branch has no fallback. -/
theorem singlem4b_duration_counterexample :
    (scanFolderContents "/lib/Foo" c3entries).2.2.length = 1 ∧
    (c3meta "/lib/Foo/book.m4b").durationSeconds = none ∧
    (c3meta "/lib/Foo/extra.mp3").durationSeconds = some 100 ∧
    (processFolderAsBook c3meta "/lib/Foo" c3entries).map
      (fun c => (c.durationSeconds, c.fileCount)) = some (none, 2) := by
  refine ⟨by decide, by decide, by decide, ?_⟩
  decide

/-- C3 amended: for a folder with exactly one `.m4b`, the candidate's
duration is always that file's extracted duration — null stays null,
with no summed fallback — while size and file count cover all audio
files. -/
theorem singlem4b_duration_is_extracted (metaOf : String → FileMeta)
    (folderPath : String) (entries : List FsEntry)
    (h1 : (scanFolderContents folderPath entries).2.2.length = 1) :
    (processFolderAsBook metaOf folderPath entries).map
      (fun c => (c.durationSeconds, c.totalSizeBytes, c.fileCount)) =
    some ((metaOf ((scanFolderContents folderPath entries).2.2.headD "")).durationSeconds,
      (scanFolderContents folderPath entries).2.1,
      (scanFolderContents folderPath entries).1.length) := by
  have hle : (scanFolderContents folderPath entries).2.2.length ≤
      (scanFolderContents folderPath entries).1.length := by
    simp only [scanFolderContents, List.length_map]
    exact le_trans (List.length_filter_le _ _) (le_of_eq (List.length_map _ _))
  have hafs : ¬ ((scanFolderContents folderPath entries).1.length = 0) := by
    omega
  have hgt : ¬ ((scanFolderContents folderPath entries).2.2.length > 1) := by
    omega
  simp only [processFolderAsBook]
  rw [if_neg hafs, if_neg hgt, if_pos h1]
  rfl

/-- The amended C3 theorem at a concrete one-`.m4b` folder. -/
theorem singlem4b_duration_is_extracted_witness :
    (scanFolderContents "/lib/Bar" c3entries).2.2.length = 1 ∧
    (processFolderAsBook c3wmeta "/lib/Bar" c3entries).map
      (fun c => (c.durationSeconds, c.totalSizeBytes, c.fileCount)) =
    some ((c3wmeta ((scanFolderContents "/lib/Bar" c3entries).2.2.headD "")).durationSeconds,
      (scanFolderContents "/lib/Bar" c3entries).2.1,
      (scanFolderContents "/lib/Bar" c3entries).1.length) :=
  ⟨by decide,
   singlem4b_duration_is_extracted c3wmeta "/lib/Bar" c3entries (by decide)⟩

/-! ## Theorems for claim C4 -/

theorem commitOne_results_length (sizeOf : String → ℚ) (now : String)
    (st : List BookRow × List FileCommitItemResult × Nat × Nat)
    (book : ReviewedBookCandidate) :
    ((commitOne sizeOf now st book).2.1).length = st.2.1.length + 1 := by
  rw [commitOne]
  split <;> simp

theorem commitFold_results_length (sizeOf : String → ℚ) (now : String)
    (books : List ReviewedBookCandidate) :
    ∀ st, ((books.foldl (commitOne sizeOf now) st).2.1).length =
      st.2.1.length + books.length := by
  induction books with
  | nil => intro st; simp
  | cons b rest ih =>
    intro st
    rw [List.foldl_cons, ih, commitOne_results_length, List.length_cons]
    omega

/-- C4 counterexample: the empty batch contains no candidate with an
unset decision, yet the route does not proceed to a per-item summary —
it rejects the batch with 400 `No books to import`. -/
theorem commit_empty_batch_rejected :
    (¬ ∃ b ∈ ([] : List ReviewedBookCandidate),
      b.multipleM4bFiles = true ∧ jsTruthyOptStr b.userDecision = false) ∧
    commitBooks (fun _ => 0) "t1" [] [] =
      (.badRequest "No books to import", []) := by
  constructor
  · rintro ⟨b, hb, -⟩
    exact List.not_mem_nil b hb
  · rfl

/-- C4 amended: a commit batch containing a multiple-`.m4b` candidate
whose user decision is unset (or empty) is rejected wholesale with the
catalog untouched; the empty batch, although it contains no such
candidate, is also rejected (`No books to import`) rather than
summarised; only a **non-empty** batch with every ambiguous candidate
decided proceeds and returns one item result per candidate, with the
summary's total equal to the batch size. -/
theorem commit_pending_gate (sizeOf : String → ℚ) (now : String)
    (db : List BookRow) (books : List ReviewedBookCandidate) :
    (books = [] →
      commitBooks sizeOf now db books = (.badRequest "No books to import", db)) ∧
    ((∃ b ∈ books, b.multipleM4bFiles = true ∧ jsTruthyOptStr b.userDecision = false) →
      ∃ e, commitBooks sizeOf now db books = (.badRequest e, db)) ∧
    (books ≠ [] →
      (∀ b ∈ books, b.multipleM4bFiles = true → jsTruthyOptStr b.userDecision = true) →
      ∃ s rs db2, commitBooks sizeOf now db books = (.ok s rs, db2) ∧
        rs.length = books.length ∧ s.total = books.length) := by
  refine ⟨?_, ?_, ?_⟩
  · intro h
    rw [h]
    rfl
  · rintro ⟨b, hb, hm, hd⟩
    have hne : ¬ (books.length = 0) := by
      intro h
      rw [List.length_eq_zero] at h
      rw [h] at hb
      exact absurd hb (List.not_mem_nil b)
    have hpend : b ∈ books.filter
        (fun b => b.multipleM4bFiles && !(jsTruthyOptStr b.userDecision)) :=
      List.mem_filter.mpr ⟨hb, by rw [hm, hd]; rfl⟩
    have hlen : (books.filter
        (fun b => b.multipleM4bFiles && !(jsTruthyOptStr b.userDecision))).length > 0 :=
      List.length_pos.mpr (List.ne_nil_of_mem hpend)
    refine ⟨toString (books.filter
      (fun b => b.multipleM4bFiles && !(jsTruthyOptStr b.userDecision))).length ++
      " folder(s) with multiple .m4b files require a user decision before import", ?_⟩
    simp only [commitBooks]
    rw [if_neg hne, if_pos hlen]
  · intro hne hdec
    have hne0 : ¬ (books.length = 0) := by
      intro h
      exact hne (List.length_eq_zero.mp h)
    have hfilt : books.filter
        (fun b => b.multipleM4bFiles && !(jsTruthyOptStr b.userDecision)) = [] := by
      refine List.filter_eq_nil_iff.mpr ?_
      intro b hb
      cases hm : b.multipleM4bFiles with
      | false => simp [hm]
      | true => simp [hm, hdec b hb hm]
    have hmain : commitBooks sizeOf now db books =
        (.ok { total := books.length
               inserted := (books.foldl (commitOne sizeOf now) (db, [], 0, 0)).2.2.1
               updated := (books.foldl (commitOne sizeOf now) (db, [], 0, 0)).2.2.2
               skipped := 0
               errors := 0 }
          (books.foldl (commitOne sizeOf now) (db, [], 0, 0)).2.1,
         (books.foldl (commitOne sizeOf now) (db, [], 0, 0)).1) := by
      simp only [commitBooks]
      rw [if_neg hne0]
      simp only [hfilt, List.length_nil, gt_iff_lt, Nat.lt_irrefl, if_false]
    refine ⟨_, _, _, hmain, ?_, rfl⟩
    rw [commitFold_results_length]
    simp

/-- The C4 amended theorem at concrete batches: the empty batch is
rejected, the undecided candidate is rejected with the catalog
unchanged, and the decided one commits with one result and total 1. -/
theorem commit_pending_gate_witness :
    commitBooks (fun _ => 0) "t0" [] [] = (.badRequest "No books to import", []) ∧
    (∃ e, commitBooks (fun _ => 0) "t0" [] [c4pending] = (.badRequest e, [])) ∧
    (∃ s rs db2, commitBooks (fun _ => 0) "t0" [] [c4ready] = (.ok s rs, db2) ∧
      rs.length = 1 ∧ s.total = 1) := by
  refine ⟨?_, ?_, ?_⟩
  · exact (commit_pending_gate (fun _ => 0) "t0" [] []).1 rfl
  · exact (commit_pending_gate (fun _ => 0) "t0" [] [c4pending]).2.1
      ⟨c4pending, List.mem_singleton.mpr rfl, by decide, by decide⟩
  · have h := (commit_pending_gate (fun _ => 0) "t0" [] [c4ready]).2.2
      (by simp) (by intro b hb hm; rw [List.mem_singleton.mp hb]; decide)
    simpa using h

end Audiobooks
